import Mathlib

/-!
Verification of the Haswell WRPLL divider-search tool
(tools/hsw_compute_wrpll.c): a shallow embedding of the budget
selector, the best-triplet update rule, the divider search and the
reference clock table, together with proofs about them.

Machine integers are modelled by Nat: every intermediate value of the
C program fits the machine type it is computed in (this is proved
below for the enumerated operating range), so Nat arithmetic coincides
with the C uint64_t and unsigned arithmetic there.
-/

namespace HswWrpll

/-! Constants: the #define block of the source. -/

def LC_FREQ : Nat := 2700
def LC_FREQ_2K : Nat := LC_FREQ * 2000

def P_MIN : Nat := 2
def P_MAX : Nat := 64
def P_INC : Nat := 2

def REF_MIN : Nat := 48
def REF_MAX : Nat := 400
def VCO_MIN : Nat := 2400
def VCO_MAX : Nat := 4800

/-- The macro ABS_DIFF(a, b) of the source. -/
def ABS_DIFF (a b : Nat) : Nat := if a > b then a - b else b - a

/-- The struct wrpll_rnp of the source. -/
structure wrpll_rnp where
  p : Nat
  n2 : Nat
  r2 : Nat
deriving DecidableEq, Repr

/-! Budget selector: wrpll_get_budget_for_freq.  The C switch on the
clock is a membership test of the clock against the literal case
labels of each tier; the clock parameter is a C int, embedded as Int. -/

def budget0List : List Int :=
  [25175000,
   25200000,
   27000000,
   27027000,
   37762500,
   37800000,
   40500000,
   40541000,
   54000000,
   54054000,
   59341000,
   59400000,
   72000000,
   74176000,
   74250000,
   81000000,
   81081000,
   89012000,
   89100000,
   108000000,
   108108000,
   111264000,
   111375000,
   148352000,
   148500000,
   162000000,
   162162000,
   222525000,
   222750000,
   296703000,
   297000000]

def budget1500List : List Int :=
  [233500000,
   245250000,
   247750000,
   253250000,
   298000000]

def budget2000List : List Int :=
  [169128000,
   169500000,
   179500000,
   202000000]

def budget4000List : List Int :=
  [256250000,
   262500000,
   270000000,
   272500000,
   273750000,
   280750000,
   281250000,
   286000000,
   291750000]

def budget5000List : List Int :=
  [267250000,
   268500000]

/-- The function wrpll_get_budget_for_freq of the source: the switch
on the clock, one membership test per tier, default budget 1000. -/
def wrpll_get_budget_for_freq (clock : Int) : Nat :=
  if clock ∈ budget0List then 0
  else if clock ∈ budget1500List then 1500
  else if clock ∈ budget2000List then 2000
  else if clock ∈ budget4000List then 4000
  else if clock ∈ budget5000List then 5000
  else 1000

/-! Best-triplet update rule: wrpll_update_rnp.  The C function
mutates *best; the embedding returns the new value of best.  The named
helper definitions are the products the update rule computes; they are
used both in the update rule and in the overflow analysis. -/

/-- The product freq2k * budget * p * r2 (the quantities a and b of
wrpll_update_rnp). -/
def wrpll_a (freq2k budget p r2 : Nat) : Nat := freq2k * budget * p * r2

/-- The quantity ABS_DIFF((freq2k * p * r2), (LC_FREQ_2K * n2)) (diff
and diff_best of wrpll_update_rnp). -/
def wrpll_diff (freq2k p r2 n2 : Nat) : Nat :=
  ABS_DIFF (freq2k * p * r2) (LC_FREQ_2K * n2)

/-- The product p * r2 * diff, the cross products compared when both
candidates are over budget. -/
def wrpll_cross (p r2 d : Nat) : Nat := p * r2 * d

/-- The product n2 * r2 * r2, compared when both candidates are within
budget. -/
def wrpll_nrr (n2 r2 : Nat) : Nat := n2 * r2 * r2

/-- The function wrpll_update_rnp of the source. -/
def wrpll_update_rnp (freq2k budget r2 n2 p : Nat) (best : wrpll_rnp) : wrpll_rnp :=
  if best.p = 0 then ⟨p, n2, r2⟩
  else
    let a := wrpll_a freq2k budget p r2
    let b := wrpll_a freq2k budget best.p best.r2
    let diff := wrpll_diff freq2k p r2 n2
    let diff_best := wrpll_diff freq2k best.p best.r2 best.n2
    let c := 1000000 * diff
    let d := 1000000 * diff_best
    if a < c ∧ b < d then
      if wrpll_cross best.p best.r2 diff < wrpll_cross p r2 diff_best then
        ⟨p, n2, r2⟩
      else best
    else if a ≥ c ∧ b < d then ⟨p, n2, r2⟩
    else if a ≥ c ∧ b ≥ d then
      if wrpll_nrr n2 best.r2 > wrpll_nrr best.n2 r2 then ⟨p, n2, r2⟩ else best
    else best

/-! Divider search: wrpll_compute_rnp.  The three nested for loops
become folds over the corresponding integer ranges;
List.range' start len step is the list start, start + step, ... of
length len. -/

/-- The values taken by p: P_MIN, P_MIN + P_INC, ..., P_MAX. -/
def pList : List Nat := List.range' P_MIN ((P_MAX - P_MIN) / P_INC + 1) P_INC

/-- The values taken by r2: LC_FREQ * 2 / REF_MAX + 1 up to
LC_FREQ * 2 / REF_MIN inclusive. -/
def r2List : List Nat :=
  List.range' (LC_FREQ * 2 / REF_MAX + 1)
    (LC_FREQ * 2 / REF_MIN + 1 - (LC_FREQ * 2 / REF_MAX + 1))

/-- The values taken by n2 for a given r2: VCO_MIN * r2 / LC_FREQ + 1
up to VCO_MAX * r2 / LC_FREQ inclusive. -/
def n2List (r2 : Nat) : List Nat :=
  List.range' (VCO_MIN * r2 / LC_FREQ + 1)
    (VCO_MAX * r2 / LC_FREQ + 1 - (VCO_MIN * r2 / LC_FREQ + 1))

/-- The loop nest of wrpll_compute_rnp together with the preceding
540 MHz bypass test, for an already computed budget. -/
def wrpll_compute_rnp_core (freq2k budget : Nat) : wrpll_rnp :=
  if freq2k = 5400000 then ⟨1, 2, 2⟩
  else
    r2List.foldl (fun best r2 =>
        (n2List r2).foldl (fun best n2 =>
            pList.foldl (fun best p =>
                wrpll_update_rnp freq2k budget r2 n2 p best)
              best)
          best)
      ⟨0, 0, 0⟩

/-- The function wrpll_compute_rnp of the source: convert the clock to
freq2k units (truncating division by 100), fetch the budget, then run
the bypass test and the search.  Every clock the tool passes in is a
nonnegative int, embedded as Nat. -/
def wrpll_compute_rnp (clock : Nat) : wrpll_rnp :=
  wrpll_compute_rnp_core (clock / 100) (wrpll_get_budget_for_freq (clock : Int))

/-! Reference table: wrpll_tmds_clock_table. -/

/-- The struct wrpll_tmds_clock of the source. -/
structure wrpll_tmds_clock where
  clock : Nat
  p : Nat
  n2 : Nat
  r2 : Nat
deriving DecidableEq, Repr

def wrpll_tmds_clock_table_0 : List wrpll_tmds_clock :=
  [⟨19750000, 38, 25, 18⟩,
   ⟨20000000, 48, 32, 18⟩,
   ⟨21000000, 36, 21, 15⟩,
   ⟨21912000, 42, 29, 17⟩,
   ⟨22000000, 36, 22, 15⟩,
   ⟨23000000, 36, 23, 15⟩,
   ⟨23500000, 40, 40, 23⟩,
   ⟨23750000, 26, 16, 14⟩,
   ⟨24000000, 36, 24, 15⟩,
   ⟨25000000, 36, 25, 15⟩,
   ⟨25175000, 26, 40, 33⟩,
   ⟨25200000, 30, 21, 15⟩,
   ⟨26000000, 36, 26, 15⟩,
   ⟨27000000, 30, 21, 14⟩,
   ⟨27027000, 18, 100, 111⟩,
   ⟨27500000, 30, 29, 19⟩,
   ⟨28000000, 34, 30, 17⟩,
   ⟨28320000, 26, 30, 22⟩,
   ⟨28322000, 32, 42, 25⟩,
   ⟨28750000, 24, 23, 18⟩,
   ⟨29000000, 30, 29, 18⟩,
   ⟨29750000, 32, 30, 17⟩,
   ⟨30000000, 30, 25, 15⟩,
   ⟨30750000, 30, 41, 24⟩,
   ⟨31000000, 30, 31, 18⟩,
   ⟨31500000, 30, 28, 16⟩,
   ⟨32000000, 30, 32, 18⟩,
   ⟨32500000, 28, 32, 19⟩,
   ⟨33000000, 24, 22, 15⟩,
   ⟨34000000, 28, 30, 17⟩,
   ⟨35000000, 26, 32, 19⟩,
   ⟨35500000, 24, 30, 19⟩,
   ⟨36000000, 26, 26, 15⟩,
   ⟨36750000, 26, 46, 26⟩,
   ⟨37000000, 24, 23, 14⟩,
   ⟨37762500, 22, 40, 26⟩,
   ⟨37800000, 20, 21, 15⟩,
   ⟨38000000, 24, 27, 16⟩,
   ⟨38250000, 24, 34, 20⟩,
   ⟨39000000, 24, 26, 15⟩]

def wrpll_tmds_clock_table_1 : List wrpll_tmds_clock :=
  [⟨40000000, 24, 32, 18⟩,
   ⟨40500000, 20, 21, 14⟩,
   ⟨40541000, 22, 147, 89⟩,
   ⟨40750000, 18, 19, 14⟩,
   ⟨41000000, 16, 17, 14⟩,
   ⟨41500000, 22, 44, 26⟩,
   ⟨41540000, 22, 44, 26⟩,
   ⟨42000000, 18, 21, 15⟩,
   ⟨42500000, 22, 45, 26⟩,
   ⟨43000000, 20, 43, 27⟩,
   ⟨43163000, 20, 24, 15⟩,
   ⟨44000000, 18, 22, 15⟩,
   ⟨44900000, 20, 108, 65⟩,
   ⟨45000000, 20, 25, 15⟩,
   ⟨45250000, 20, 52, 31⟩,
   ⟨46000000, 18, 23, 15⟩,
   ⟨46750000, 20, 45, 26⟩,
   ⟨47000000, 20, 40, 23⟩,
   ⟨48000000, 18, 24, 15⟩,
   ⟨49000000, 18, 49, 30⟩,
   ⟨49500000, 16, 22, 15⟩,
   ⟨50000000, 18, 25, 15⟩,
   ⟨50500000, 18, 32, 19⟩,
   ⟨51000000, 18, 34, 20⟩,
   ⟨52000000, 18, 26, 15⟩,
   ⟨52406000, 14, 34, 25⟩,
   ⟨53000000, 16, 22, 14⟩,
   ⟨54000000, 16, 24, 15⟩,
   ⟨54054000, 16, 173, 108⟩,
   ⟨54500000, 14, 24, 17⟩,
   ⟨55000000, 12, 22, 18⟩,
   ⟨56000000, 14, 45, 31⟩,
   ⟨56250000, 16, 25, 15⟩,
   ⟨56750000, 14, 25, 17⟩,
   ⟨57000000, 16, 27, 16⟩,
   ⟨58000000, 16, 43, 25⟩,
   ⟨58250000, 16, 38, 22⟩,
   ⟨58750000, 16, 40, 23⟩,
   ⟨59000000, 14, 26, 17⟩,
   ⟨59341000, 14, 40, 26⟩]

def wrpll_tmds_clock_table_2 : List wrpll_tmds_clock :=
  [⟨59400000, 16, 44, 25⟩,
   ⟨60000000, 16, 32, 18⟩,
   ⟨60500000, 12, 39, 29⟩,
   ⟨61000000, 14, 49, 31⟩,
   ⟨62000000, 14, 37, 23⟩,
   ⟨62250000, 14, 42, 26⟩,
   ⟨63000000, 12, 21, 15⟩,
   ⟨63500000, 14, 28, 17⟩,
   ⟨64000000, 12, 27, 19⟩,
   ⟨65000000, 14, 32, 19⟩,
   ⟨65250000, 12, 29, 20⟩,
   ⟨65500000, 12, 32, 22⟩,
   ⟨66000000, 12, 22, 15⟩,
   ⟨66667000, 14, 38, 22⟩,
   ⟨66750000, 10, 21, 17⟩,
   ⟨67000000, 14, 33, 19⟩,
   ⟨67750000, 14, 58, 33⟩,
   ⟨68000000, 14, 30, 17⟩,
   ⟨68179000, 14, 46, 26⟩,
   ⟨68250000, 14, 46, 26⟩,
   ⟨69000000, 12, 23, 15⟩,
   ⟨70000000, 12, 28, 18⟩,
   ⟨71000000, 12, 30, 19⟩,
   ⟨72000000, 12, 24, 15⟩,
   ⟨73000000, 10, 23, 17⟩,
   ⟨74000000, 12, 23, 14⟩,
   ⟨74176000, 8, 100, 91⟩,
   ⟨74250000, 10, 22, 16⟩,
   ⟨74481000, 12, 43, 26⟩,
   ⟨74500000, 10, 29, 21⟩,
   ⟨75000000, 12, 25, 15⟩,
   ⟨75250000, 10, 39, 28⟩,
   ⟨76000000, 12, 27, 16⟩,
   ⟨77000000, 12, 53, 31⟩,
   ⟨78000000, 12, 26, 15⟩,
   ⟨78750000, 12, 28, 16⟩,
   ⟨79000000, 10, 38, 26⟩,
   ⟨79500000, 10, 28, 19⟩,
   ⟨80000000, 12, 32, 18⟩,
   ⟨81000000, 10, 21, 14⟩]

def wrpll_tmds_clock_table_3 : List wrpll_tmds_clock :=
  [⟨81081000, 6, 100, 111⟩,
   ⟨81624000, 8, 29, 24⟩,
   ⟨82000000, 8, 17, 14⟩,
   ⟨83000000, 10, 40, 26⟩,
   ⟨83950000, 10, 28, 18⟩,
   ⟨84000000, 10, 28, 18⟩,
   ⟨84750000, 6, 16, 17⟩,
   ⟨85000000, 6, 17, 18⟩,
   ⟨85250000, 10, 30, 19⟩,
   ⟨85750000, 10, 27, 17⟩,
   ⟨86000000, 10, 43, 27⟩,
   ⟨87000000, 10, 29, 18⟩,
   ⟨88000000, 10, 44, 27⟩,
   ⟨88500000, 10, 41, 25⟩,
   ⟨89000000, 10, 28, 17⟩,
   ⟨89012000, 6, 90, 91⟩,
   ⟨89100000, 10, 33, 20⟩,
   ⟨90000000, 10, 25, 15⟩,
   ⟨91000000, 10, 32, 19⟩,
   ⟨92000000, 10, 46, 27⟩,
   ⟨93000000, 10, 31, 18⟩,
   ⟨94000000, 10, 40, 23⟩,
   ⟨94500000, 10, 28, 16⟩,
   ⟨95000000, 10, 44, 25⟩,
   ⟨95654000, 10, 39, 22⟩,
   ⟨95750000, 10, 39, 22⟩,
   ⟨96000000, 10, 32, 18⟩,
   ⟨97000000, 8, 23, 16⟩,
   ⟨97750000, 8, 42, 29⟩,
   ⟨98000000, 8, 45, 31⟩,
   ⟨99000000, 8, 22, 15⟩,
   ⟨99750000, 8, 34, 23⟩,
   ⟨100000000, 6, 20, 18⟩,
   ⟨100500000, 6, 19, 17⟩,
   ⟨101000000, 6, 37, 33⟩,
   ⟨101250000, 8, 21, 14⟩,
   ⟨102000000, 6, 17, 15⟩,
   ⟨102250000, 6, 25, 22⟩,
   ⟨103000000, 8, 29, 19⟩,
   ⟨104000000, 8, 37, 24⟩]

def wrpll_tmds_clock_table_4 : List wrpll_tmds_clock :=
  [⟨105000000, 8, 28, 18⟩,
   ⟨106000000, 8, 22, 14⟩,
   ⟨107000000, 8, 46, 29⟩,
   ⟨107214000, 8, 27, 17⟩,
   ⟨108000000, 8, 24, 15⟩,
   ⟨108108000, 8, 173, 108⟩,
   ⟨109000000, 6, 23, 19⟩,
   ⟨110000000, 6, 22, 18⟩,
   ⟨110013000, 6, 22, 18⟩,
   ⟨110250000, 8, 49, 30⟩,
   ⟨110500000, 8, 36, 22⟩,
   ⟨111000000, 8, 23, 14⟩,
   ⟨111264000, 8, 150, 91⟩,
   ⟨111375000, 8, 33, 20⟩,
   ⟨112000000, 8, 63, 38⟩,
   ⟨112500000, 8, 25, 15⟩,
   ⟨113100000, 8, 57, 34⟩,
   ⟨113309000, 8, 42, 25⟩,
   ⟨114000000, 8, 27, 16⟩,
   ⟨115000000, 6, 23, 18⟩,
   ⟨116000000, 8, 43, 25⟩,
   ⟨117000000, 8, 26, 15⟩,
   ⟨117500000, 8, 40, 23⟩,
   ⟨118000000, 6, 38, 29⟩,
   ⟨119000000, 8, 30, 17⟩,
   ⟨119500000, 8, 46, 26⟩,
   ⟨119651000, 8, 39, 22⟩,
   ⟨120000000, 8, 32, 18⟩,
   ⟨121000000, 6, 39, 29⟩,
   ⟨121250000, 6, 31, 23⟩,
   ⟨121750000, 6, 23, 17⟩,
   ⟨122000000, 6, 42, 31⟩,
   ⟨122614000, 6, 30, 22⟩,
   ⟨123000000, 6, 41, 30⟩,
   ⟨123379000, 6, 37, 27⟩,
   ⟨124000000, 6, 51, 37⟩,
   ⟨125000000, 6, 25, 18⟩,
   ⟨125250000, 4, 13, 14⟩,
   ⟨125750000, 4, 27, 29⟩,
   ⟨126000000, 6, 21, 15⟩]

def wrpll_tmds_clock_table_5 : List wrpll_tmds_clock :=
  [⟨127000000, 6, 24, 17⟩,
   ⟨127250000, 6, 41, 29⟩,
   ⟨128000000, 6, 27, 19⟩,
   ⟨129000000, 6, 43, 30⟩,
   ⟨129859000, 4, 25, 26⟩,
   ⟨130000000, 6, 26, 18⟩,
   ⟨130250000, 6, 42, 29⟩,
   ⟨131000000, 6, 32, 22⟩,
   ⟨131500000, 6, 38, 26⟩,
   ⟨131850000, 6, 41, 28⟩,
   ⟨132000000, 6, 22, 15⟩,
   ⟨132750000, 6, 28, 19⟩,
   ⟨133000000, 6, 34, 23⟩,
   ⟨133330000, 6, 37, 25⟩,
   ⟨134000000, 6, 61, 41⟩,
   ⟨135000000, 6, 21, 14⟩,
   ⟨135250000, 6, 167, 111⟩,
   ⟨136000000, 6, 62, 41⟩,
   ⟨137000000, 6, 35, 23⟩,
   ⟨138000000, 6, 23, 15⟩,
   ⟨138500000, 6, 40, 26⟩,
   ⟨138750000, 6, 37, 24⟩,
   ⟨139000000, 6, 34, 22⟩,
   ⟨139050000, 6, 34, 22⟩,
   ⟨139054000, 6, 34, 22⟩,
   ⟨140000000, 6, 28, 18⟩,
   ⟨141000000, 6, 36, 23⟩,
   ⟨141500000, 6, 22, 14⟩,
   ⟨142000000, 6, 30, 19⟩,
   ⟨143000000, 6, 27, 17⟩,
   ⟨143472000, 4, 17, 16⟩,
   ⟨144000000, 6, 24, 15⟩,
   ⟨145000000, 6, 29, 18⟩,
   ⟨146000000, 6, 47, 29⟩,
   ⟨146250000, 6, 26, 16⟩,
   ⟨147000000, 6, 49, 30⟩,
   ⟨147891000, 6, 23, 14⟩,
   ⟨148000000, 6, 23, 14⟩,
   ⟨148250000, 6, 28, 17⟩,
   ⟨148352000, 4, 100, 91⟩]

def wrpll_tmds_clock_table_6 : List wrpll_tmds_clock :=
  [⟨148500000, 6, 33, 20⟩,
   ⟨149000000, 6, 48, 29⟩,
   ⟨150000000, 6, 25, 15⟩,
   ⟨151000000, 4, 19, 17⟩,
   ⟨152000000, 6, 27, 16⟩,
   ⟨152280000, 6, 44, 26⟩,
   ⟨153000000, 6, 34, 20⟩,
   ⟨154000000, 6, 53, 31⟩,
   ⟨155000000, 6, 31, 18⟩,
   ⟨155250000, 6, 50, 29⟩,
   ⟨155750000, 6, 45, 26⟩,
   ⟨156000000, 6, 26, 15⟩,
   ⟨157000000, 6, 61, 35⟩,
   ⟨157500000, 6, 28, 16⟩,
   ⟨158000000, 6, 65, 37⟩,
   ⟨158250000, 6, 44, 25⟩,
   ⟨159000000, 6, 53, 30⟩,
   ⟨159500000, 6, 39, 22⟩,
   ⟨160000000, 6, 32, 18⟩,
   ⟨161000000, 4, 31, 26⟩,
   ⟨162000000, 4, 18, 15⟩,
   ⟨162162000, 4, 131, 109⟩,
   ⟨162500000, 4, 53, 44⟩,
   ⟨163000000, 4, 29, 24⟩,
   ⟨164000000, 4, 17, 14⟩,
   ⟨165000000, 4, 22, 18⟩,
   ⟨166000000, 4, 32, 26⟩,
   ⟨167000000, 4, 26, 21⟩,
   ⟨168000000, 4, 46, 37⟩,
   ⟨169000000, 4, 104, 83⟩,
   ⟨169128000, 4, 64, 51⟩,
   ⟨169500000, 4, 39, 31⟩,
   ⟨170000000, 4, 34, 27⟩,
   ⟨171000000, 4, 19, 15⟩,
   ⟨172000000, 4, 51, 40⟩,
   ⟨172750000, 4, 32, 25⟩,
   ⟨172800000, 4, 32, 25⟩,
   ⟨173000000, 4, 41, 32⟩,
   ⟨174000000, 4, 49, 38⟩,
   ⟨174787000, 4, 22, 17⟩]

def wrpll_tmds_clock_table_7 : List wrpll_tmds_clock :=
  [⟨175000000, 4, 35, 27⟩,
   ⟨176000000, 4, 30, 23⟩,
   ⟨177000000, 4, 38, 29⟩,
   ⟨178000000, 4, 29, 22⟩,
   ⟨178500000, 4, 37, 28⟩,
   ⟨179000000, 4, 53, 40⟩,
   ⟨179500000, 4, 73, 55⟩,
   ⟨180000000, 4, 20, 15⟩,
   ⟨181000000, 4, 55, 41⟩,
   ⟨182000000, 4, 31, 23⟩,
   ⟨183000000, 4, 42, 31⟩,
   ⟨184000000, 4, 30, 22⟩,
   ⟨184750000, 4, 26, 19⟩,
   ⟨185000000, 4, 37, 27⟩,
   ⟨186000000, 4, 51, 37⟩,
   ⟨187000000, 4, 36, 26⟩,
   ⟨188000000, 4, 32, 23⟩,
   ⟨189000000, 4, 21, 15⟩,
   ⟨190000000, 4, 38, 27⟩,
   ⟨190960000, 4, 41, 29⟩,
   ⟨191000000, 4, 41, 29⟩,
   ⟨192000000, 4, 27, 19⟩,
   ⟨192250000, 4, 37, 26⟩,
   ⟨193000000, 4, 20, 14⟩,
   ⟨193250000, 4, 53, 37⟩,
   ⟨194000000, 4, 23, 16⟩,
   ⟨194208000, 4, 23, 16⟩,
   ⟨195000000, 4, 26, 18⟩,
   ⟨196000000, 4, 45, 31⟩,
   ⟨197000000, 4, 35, 24⟩,
   ⟨197750000, 4, 41, 28⟩,
   ⟨198000000, 4, 22, 15⟩,
   ⟨198500000, 4, 25, 17⟩,
   ⟨199000000, 4, 28, 19⟩,
   ⟨200000000, 4, 37, 25⟩,
   ⟨201000000, 4, 61, 41⟩,
   ⟨202000000, 4, 112, 75⟩,
   ⟨202500000, 4, 21, 14⟩,
   ⟨203000000, 4, 146, 97⟩,
   ⟨204000000, 4, 62, 41⟩]

def wrpll_tmds_clock_table_8 : List wrpll_tmds_clock :=
  [⟨204750000, 4, 44, 29⟩,
   ⟨205000000, 4, 38, 25⟩,
   ⟨206000000, 4, 29, 19⟩,
   ⟨207000000, 4, 23, 15⟩,
   ⟨207500000, 4, 40, 26⟩,
   ⟨208000000, 4, 37, 24⟩,
   ⟨208900000, 4, 48, 31⟩,
   ⟨209000000, 4, 48, 31⟩,
   ⟨209250000, 4, 31, 20⟩,
   ⟨210000000, 4, 28, 18⟩,
   ⟨211000000, 4, 25, 16⟩,
   ⟨212000000, 4, 22, 14⟩,
   ⟨213000000, 4, 30, 19⟩,
   ⟨213750000, 4, 38, 24⟩,
   ⟨214000000, 4, 46, 29⟩,
   ⟨214750000, 4, 35, 22⟩,
   ⟨215000000, 4, 43, 27⟩,
   ⟨216000000, 4, 24, 15⟩,
   ⟨217000000, 4, 37, 23⟩,
   ⟨218000000, 4, 42, 26⟩,
   ⟨218250000, 4, 42, 26⟩,
   ⟨218750000, 4, 34, 21⟩,
   ⟨219000000, 4, 47, 29⟩,
   ⟨220000000, 4, 44, 27⟩,
   ⟨220640000, 4, 49, 30⟩,
   ⟨220750000, 4, 36, 22⟩,
   ⟨221000000, 4, 36, 22⟩,
   ⟨222000000, 4, 23, 14⟩,
   ⟨222525000, 4, 150, 91⟩,
   ⟨222750000, 4, 33, 20⟩,
   ⟨227000000, 4, 37, 22⟩,
   ⟨230250000, 4, 29, 17⟩,
   ⟨233500000, 4, 38, 22⟩,
   ⟨235000000, 4, 40, 23⟩,
   ⟨238000000, 4, 30, 17⟩,
   ⟨241500000, 2, 17, 19⟩,
   ⟨245250000, 2, 20, 22⟩,
   ⟨247750000, 2, 22, 24⟩,
   ⟨253250000, 2, 15, 16⟩,
   ⟨256250000, 2, 18, 19⟩]

def wrpll_tmds_clock_table_9 : List wrpll_tmds_clock :=
  [⟨262500000, 2, 31, 32⟩,
   ⟨267250000, 2, 66, 67⟩,
   ⟨268500000, 2, 94, 95⟩,
   ⟨270000000, 2, 14, 14⟩,
   ⟨272500000, 2, 77, 76⟩,
   ⟨273750000, 2, 57, 56⟩,
   ⟨280750000, 2, 24, 23⟩,
   ⟨281250000, 2, 23, 22⟩,
   ⟨286000000, 2, 17, 16⟩,
   ⟨291750000, 2, 26, 24⟩,
   ⟨296703000, 2, 100, 91⟩,
   ⟨297000000, 2, 22, 20⟩,
   ⟨298000000, 2, 21, 19⟩]

/-- The 373 rows of wrpll_tmds_clock_table, in source order (split
into chunks of 40 only to keep elaboration fast). -/
def wrpll_tmds_clock_table : List wrpll_tmds_clock :=
  wrpll_tmds_clock_table_0 ++ wrpll_tmds_clock_table_1 ++ wrpll_tmds_clock_table_2 ++ wrpll_tmds_clock_table_3 ++ wrpll_tmds_clock_table_4 ++ wrpll_tmds_clock_table_5 ++ wrpll_tmds_clock_table_6 ++ wrpll_tmds_clock_table_7 ++ wrpll_tmds_clock_table_8 ++ wrpll_tmds_clock_table_9

/-! Verification harness: main.  The loop body (the mismatch test and
the diagnostic arguments) is in the source; the reporting and exit
semantics of igt_fail_on_f live in the igt framework headers, which
are not part of this repository, and are modelled from the spec. -/

/-- Diagnostic record of one failure report of the harness. -/
structure mismatch_report where
  freq_hz : Int
  expected : wrpll_rnp
  computed : wrpll_rnp
deriving DecidableEq, Repr

/-- Loop body of main: recompute the triplet of a table row, compare
field by field, and on mismatch report the frequency formatted as
(int64_t)ref->clock * 1000 together with the reference and computed
triplets. -/
def harness_report (e : wrpll_tmds_clock) : Option mismatch_report :=
  let computed := wrpll_compute_rnp e.clock
  if e.r2 ≠ computed.r2 ∨ e.n2 ≠ computed.n2 ∨ e.p ≠ computed.p then
    some ⟨(e.clock : Int) * 1000, ⟨e.p, e.n2, e.r2⟩, computed⟩
  else none

/-- Modelled from the spec: what is missing from this repository is
igt_fail_on_f (from the igt framework headers), which the spec
describes as reporting the failing case and continuing: the harness
"does not abort remaining test cases", it "continues checking all
table entries and aggregates pass/fail".  So the loop of main walks
the whole table and accumulates the reports of the processed rows. -/
def harness_run : List wrpll_tmds_clock → List mismatch_report → List mismatch_report
  | [], acc => acc
  | e :: tbl, acc => harness_run tbl (acc ++ (harness_report e).toList)

/-- Modelled from the spec: the process exit status, "nonzero on any
mismatch, zero if all match". -/
def harness_exit_status (tbl : List wrpll_tmds_clock) : Nat :=
  if harness_run tbl [] = [] then 0 else 1

/-! Basic facts about the update rule. -/

/-- The update rule on the zero sentinel adopts the candidate. -/
theorem wrpll_update_rnp_sentinel (freq2k budget r2 n2 p : Nat) (best : wrpll_rnp)
    (h : best.p = 0) : wrpll_update_rnp freq2k budget r2 n2 p best = ⟨p, n2, r2⟩ := by
  unfold wrpll_update_rnp
  rw [if_pos h]

/-- The update rule returns either the old record or the candidate. -/
theorem wrpll_update_rnp_mem (freq2k budget r2 n2 p : Nat) (best : wrpll_rnp) :
    wrpll_update_rnp freq2k budget r2 n2 p best = best ∨
      wrpll_update_rnp freq2k budget r2 n2 p best = ⟨p, n2, r2⟩ := by
  simp only [wrpll_update_rnp]
  split_ifs <;> simp

/-! Claim C2: the update rule follows the spec case analysis exactly.
The definition below is written from the wording of the claim: the
four cases over the pair of budget tests, each stated directly. -/

/-- Update rule as the claim states it: sentinel adoption, then the
four cases over (a less than c, b less than d), written in the order of
the claim with the square of r2 spelled as a power. -/
def wrpll_update_rnp_spec (freq2k budget r2 n2 p : Nat) (best : wrpll_rnp) : wrpll_rnp :=
  if best.p = 0 then ⟨p, n2, r2⟩
  else
    let a := freq2k * budget * p * r2
    let b := freq2k * budget * best.p * best.r2
    let c := 1000000 * ABS_DIFF (freq2k * p * r2) (LC_FREQ_2K * n2)
    let d := 1000000 * ABS_DIFF (freq2k * best.p * best.r2) (LC_FREQ_2K * best.n2)
    if a < c ∧ b < d then
      if best.p * best.r2 * ABS_DIFF (freq2k * p * r2) (LC_FREQ_2K * n2) <
          p * r2 * ABS_DIFF (freq2k * best.p * best.r2) (LC_FREQ_2K * best.n2) then
        ⟨p, n2, r2⟩
      else best
    else if a ≥ c ∧ b < d then ⟨p, n2, r2⟩
    else if a < c ∧ b ≥ d then best
    else if n2 * best.r2 ^ 2 > best.n2 * r2 ^ 2 then ⟨p, n2, r2⟩ else best

/-- Claim C2: the best-triplet update rule of the source follows
exactly the case analysis stated in the spec: unconditional adoption on
the p = 0 sentinel, and otherwise, with a, b, c, d as defined there,
replacement controlled by the four cases over (a < c, b < d). -/
theorem C2_update_rule_spec (freq2k budget r2 n2 p : Nat) (best : wrpll_rnp) :
    wrpll_update_rnp freq2k budget r2 n2 p best =
      wrpll_update_rnp_spec freq2k budget r2 n2 p best := by
  simp only [wrpll_update_rnp, wrpll_update_rnp_spec, wrpll_a, wrpll_diff, wrpll_cross,
    wrpll_nrr, pow_two, Nat.mul_assoc]
  split_ifs <;> first | rfl | omega

/-! Claim C4: the 540 MHz bypass. -/

/-- Claim C4: on input 540000000 Hz the search is bypassed and the
fixed triplet (r2 = 2, n2 = 2, p = 1) is returned; the second conjunct
shows the bypass is independent of the budget value. -/
theorem C4_bypass :
    wrpll_compute_rnp 540000000 = ⟨1, 2, 2⟩ ∧
      ∀ budget : Nat, wrpll_compute_rnp_core 5400000 budget = ⟨1, 2, 2⟩ := by
  constructor
  · rfl
  · intro budget
    rfl

/-! Claim C9: the bypass triggers for the whole truncation preimage of
freq2k = 5400000. -/

/-- Claim C9: every clock between 540000000 and 540000099 Hz has
freq2k equal to 5400000 after the truncating division by 100, so all
one hundred of these inputs take the bypass path and return the fixed
triplet (r2 = 2, n2 = 2, p = 1). -/
theorem C9_bypass_range (clock : Nat) (h1 : 540000000 ≤ clock) (h2 : clock ≤ 540000099) :
    wrpll_compute_rnp clock = ⟨1, 2, 2⟩ := by
  have h : clock / 100 = 5400000 := by omega
  simp [wrpll_compute_rnp, wrpll_compute_rnp_core, h]

/-- Witness for C9 at clock 540000050. -/
theorem C9_bypass_range_witness :
    540000000 ≤ 540000050 ∧ 540000050 ≤ 540000099 ∧
      wrpll_compute_rnp 540000050 = ⟨1, 2, 2⟩ :=
  ⟨by decide, by decide, C9_bypass_range 540000050 (by decide) (by decide)⟩

/-! Claim C6: the budget selector. -/

/-- Concatenation of the five non-default tier label lists. -/
def nonDefaultTierClocks : List Int :=
  budget0List ++ budget1500List ++ budget2000List ++ budget4000List ++ budget5000List

/-- Claim C6: the budget selector is total on the integers and returns
one of exactly the six values 0, 1000, 1500, 2000, 4000, 5000; for
every clock not equal to one of the literal frequencies of the five
non-default tiers it returns 1000. -/
theorem C6_budget_total (clock : Int) :
    (wrpll_get_budget_for_freq clock = 0 ∨ wrpll_get_budget_for_freq clock = 1000 ∨
     wrpll_get_budget_for_freq clock = 1500 ∨ wrpll_get_budget_for_freq clock = 2000 ∨
     wrpll_get_budget_for_freq clock = 4000 ∨ wrpll_get_budget_for_freq clock = 5000) ∧
    (clock ∉ nonDefaultTierClocks → wrpll_get_budget_for_freq clock = 1000) := by
  constructor
  · unfold wrpll_get_budget_for_freq
    split_ifs <;> simp
  · intro h
    simp only [nonDefaultTierClocks, List.mem_append, not_or] at h
    obtain ⟨⟨⟨⟨h0, h1⟩, h2⟩, h3⟩, h4⟩ := h
    unfold wrpll_get_budget_for_freq
    rw [if_neg h0, if_neg h1, if_neg h2, if_neg h3, if_neg h4]

/-- Witness for C6 at the unlisted clock 12345. -/
theorem C6_budget_total_witness :
    (12345 : Int) ∉ nonDefaultTierClocks ∧ wrpll_get_budget_for_freq 12345 = 1000 :=
  ⟨by decide, (C6_budget_total 12345).2 (by decide)⟩

/-! Claim C7: an in-budget candidate always wins against an over-budget
one, in either processing order. -/

/-- Claim C7: take two candidates of which the first is within the
budget threshold (its scaled error 1000000 * diff is at most
freq2k * budget * p * r2) and the second is over it.  Starting from the
zero sentinel record and applying the update rule to the two candidates
in either order leaves the in-budget candidate selected, independently
of the error magnitudes. -/
theorem C7_in_budget_wins (f B r2a n2a pa r2b n2b pb : Nat)
    (hpa : pa ≠ 0) (hpb : pb ≠ 0)
    (hin : 1000000 * wrpll_diff f pa r2a n2a ≤ wrpll_a f B pa r2a)
    (hout : wrpll_a f B pb r2b < 1000000 * wrpll_diff f pb r2b n2b) :
    wrpll_update_rnp f B r2b n2b pb (wrpll_update_rnp f B r2a n2a pa ⟨0, 0, 0⟩) =
        ⟨pa, n2a, r2a⟩ ∧
      wrpll_update_rnp f B r2a n2a pa (wrpll_update_rnp f B r2b n2b pb ⟨0, 0, 0⟩) =
        ⟨pa, n2a, r2a⟩ := by
  rw [wrpll_update_rnp_sentinel f B r2a n2a pa ⟨0, 0, 0⟩ rfl,
    wrpll_update_rnp_sentinel f B r2b n2b pb ⟨0, 0, 0⟩ rfl]
  constructor
  · simp only [wrpll_update_rnp]
    split_ifs <;> simp_all
    all_goals omega
  · simp only [wrpll_update_rnp]
    split_ifs <;> simp_all
    all_goals omega

/-- Witness for C7: with freq2k 1000000 and budget 100000 the
candidate (r2 = 14, n2 = 5, p = 2) is within budget while
(r2 = 14, n2 = 3, p = 2) is over it, and both orders select the
former. -/
theorem C7_in_budget_wins_witness :
    (2 : Nat) ≠ 0 ∧
      1000000 * wrpll_diff 1000000 2 14 5 ≤ wrpll_a 1000000 100000 2 14 ∧
      wrpll_a 1000000 100000 2 14 < 1000000 * wrpll_diff 1000000 2 14 3 ∧
      wrpll_update_rnp 1000000 100000 14 3 2
          (wrpll_update_rnp 1000000 100000 14 5 2 ⟨0, 0, 0⟩) = ⟨2, 5, 14⟩ ∧
      wrpll_update_rnp 1000000 100000 14 5 2
          (wrpll_update_rnp 1000000 100000 14 3 2 ⟨0, 0, 0⟩) = ⟨2, 5, 14⟩ := by
  refine ⟨by decide, by decide, by decide, ?_⟩
  exact C7_in_budget_wins 1000000 100000 14 5 2 14 3 2 (by decide) (by decide)
    (by decide) (by decide)

/-! Claim C10: all replacement comparisons are strict, so exact ties
keep the incumbent. -/

/-- Claim C10: if both the incumbent and the candidate are within
budget and the cross products n2 * r2 * r2 tie exactly, or both are
over budget and the cross products p * r2 * diff tie exactly, the
update rule keeps the incumbent, so among tied candidates the one
adopted earlier in the enumeration is the one that survives. -/
theorem C10_ties_keep_incumbent (f B r2 n2 p : Nat) (best : wrpll_rnp)
    (hbp : best.p ≠ 0)
    (hcase :
      (1000000 * wrpll_diff f p r2 n2 ≤ wrpll_a f B p r2 ∧
        1000000 * wrpll_diff f best.p best.r2 best.n2 ≤ wrpll_a f B best.p best.r2 ∧
        wrpll_nrr n2 best.r2 = wrpll_nrr best.n2 r2) ∨
      (wrpll_a f B p r2 < 1000000 * wrpll_diff f p r2 n2 ∧
        wrpll_a f B best.p best.r2 < 1000000 * wrpll_diff f best.p best.r2 best.n2 ∧
        wrpll_cross best.p best.r2 (wrpll_diff f p r2 n2) =
          wrpll_cross p r2 (wrpll_diff f best.p best.r2 best.n2))) :
    wrpll_update_rnp f B r2 n2 p best = best := by
  simp only [wrpll_update_rnp]
  rcases hcase with ⟨h1, h2, h3⟩ | ⟨h1, h2, h3⟩ <;> split_ifs <;> first | rfl | omega

/-- Witness for C10: with freq2k 1 and budget 10 ^ 13 the incumbent
(p = 2, n2 = 8, r2 = 4) and the candidate (r2 = 2, n2 = 2, p = 2) are
both within budget, their n2 * r2 * r2 products tie at 32, and the
incumbent is kept. -/
theorem C10_ties_keep_incumbent_witness :
    (8 : Nat) ≠ 0 ∧
      1000000 * wrpll_diff 1 2 2 2 ≤ wrpll_a 1 10000000000000 2 2 ∧
      1000000 * wrpll_diff 1 2 4 8 ≤ wrpll_a 1 10000000000000 2 4 ∧
      wrpll_nrr 2 4 = wrpll_nrr 8 2 ∧
      wrpll_update_rnp 1 10000000000000 2 2 2 ⟨2, 8, 4⟩ = ⟨2, 8, 4⟩ := by
  refine ⟨by decide, by decide, by decide, by decide, ?_⟩
  exact C10_ties_keep_incumbent 1 10000000000000 2 2 2 ⟨2, 8, 4⟩ (by decide)
    (Or.inl ⟨by decide, by decide, by decide⟩)

/-! Claim C8: no machine-integer wraparound in the update rule over the
enumerated operating range. -/

/-- Bounds an absolute difference by any common upper bound. -/
theorem ABS_DIFF_le (a b x : Nat) (ha : a ≤ x) (hb : b ≤ x) : ABS_DIFF a b ≤ x := by
  unfold ABS_DIFF
  split <;> omega

/-- Claim C8: over the operating range (freq2k at most 3000000, budget
one of the six table values, divider components bounded by the
enumeration), every intermediate product of the update rule equals its
mathematical value in the machine type it is computed in: the 64-bit
quantities a, b, diff, diff_best, c, d and both cross products stay
below 2 ^ 64, and the unsigned products n2 * r2 * r2 stay below
2 ^ 32. -/
theorem C8_no_overflow (f B r2 n2 p r2b n2b pb : Nat)
    (hf : f ≤ 3000000) (hB : B ∈ ([0, 1000, 1500, 2000, 4000, 5000] : List Nat))
    (hr2 : r2 ≤ 112) (hn2 : n2 ≤ 199) (hp : p ≤ 64)
    (hr2b : r2b ≤ 112) (hn2b : n2b ≤ 199) (hpb : pb ≤ 64) :
    wrpll_a f B p r2 < 2 ^ 64 ∧ wrpll_a f B pb r2b < 2 ^ 64 ∧
      wrpll_diff f p r2 n2 < 2 ^ 64 ∧ wrpll_diff f pb r2b n2b < 2 ^ 64 ∧
      1000000 * wrpll_diff f p r2 n2 < 2 ^ 64 ∧
      1000000 * wrpll_diff f pb r2b n2b < 2 ^ 64 ∧
      wrpll_cross pb r2b (wrpll_diff f p r2 n2) < 2 ^ 64 ∧
      wrpll_cross p r2 (wrpll_diff f pb r2b n2b) < 2 ^ 64 ∧
      wrpll_nrr n2 r2b < 2 ^ 32 ∧ wrpll_nrr n2b r2 < 2 ^ 32 := by
  have hB5 : B ≤ 5000 := by
    simp only [List.mem_cons, List.not_mem_nil, or_false] at hB
    rcases hB with h | h | h | h | h | h <;> omega
  have hfp : f * p ≤ 3000000 * 64 := Nat.mul_le_mul hf hp
  have hfpr : f * p * r2 ≤ 3000000 * 64 * 112 := Nat.mul_le_mul hfp hr2
  have hfpb : f * pb ≤ 3000000 * 64 := Nat.mul_le_mul hf hpb
  have hfprb : f * pb * r2b ≤ 3000000 * 64 * 112 := Nat.mul_le_mul hfpb hr2b
  have hL : LC_FREQ_2K * n2 ≤ 5400000 * 199 := by
    have : LC_FREQ_2K = 5400000 := by decide
    rw [this]
    exact Nat.mul_le_mul_left 5400000 hn2
  have hLb : LC_FREQ_2K * n2b ≤ 5400000 * 199 := by
    have : LC_FREQ_2K = 5400000 := by decide
    rw [this]
    exact Nat.mul_le_mul_left 5400000 hn2b
  have hd : wrpll_diff f p r2 n2 ≤ 21504000000 :=
    ABS_DIFF_le _ _ _ (le_trans hfpr (by norm_num)) (le_trans hL (by norm_num))
  have hdb : wrpll_diff f pb r2b n2b ≤ 21504000000 :=
    ABS_DIFF_le _ _ _ (le_trans hfprb (by norm_num)) (le_trans hLb (by norm_num))
  have ha : wrpll_a f B p r2 ≤ 3000000 * 5000 * 64 * 112 := by
    unfold wrpll_a
    exact Nat.mul_le_mul (Nat.mul_le_mul (Nat.mul_le_mul hf hB5) hp) hr2
  have hab : wrpll_a f B pb r2b ≤ 3000000 * 5000 * 64 * 112 := by
    unfold wrpll_a
    exact Nat.mul_le_mul (Nat.mul_le_mul (Nat.mul_le_mul hf hB5) hpb) hr2b
  have hx : wrpll_cross pb r2b (wrpll_diff f p r2 n2) ≤ 64 * 112 * 21504000000 := by
    unfold wrpll_cross
    exact Nat.mul_le_mul (Nat.mul_le_mul hpb hr2b) hd
  have hxb : wrpll_cross p r2 (wrpll_diff f pb r2b n2b) ≤ 64 * 112 * 21504000000 := by
    unfold wrpll_cross
    exact Nat.mul_le_mul (Nat.mul_le_mul hp hr2) hdb
  have hn : wrpll_nrr n2 r2b ≤ 199 * 112 * 112 := by
    unfold wrpll_nrr
    exact Nat.mul_le_mul (Nat.mul_le_mul hn2 hr2b) hr2b
  have hnb : wrpll_nrr n2b r2 ≤ 199 * 112 * 112 := by
    unfold wrpll_nrr
    exact Nat.mul_le_mul (Nat.mul_le_mul hn2b hr2) hr2
  refine ⟨?_, ?_, ?_, ?_, ?_, ?_, ?_, ?_, ?_, ?_⟩ <;>
    first
      | exact lt_of_le_of_lt ha (by norm_num)
      | exact lt_of_le_of_lt hab (by norm_num)
      | exact lt_of_le_of_lt hd (by norm_num)
      | exact lt_of_le_of_lt hdb (by norm_num)
      | exact lt_of_le_of_lt (Nat.mul_le_mul_left 1000000 hd) (by norm_num)
      | exact lt_of_le_of_lt (Nat.mul_le_mul_left 1000000 hdb) (by norm_num)
      | exact lt_of_le_of_lt hx (by norm_num)
      | exact lt_of_le_of_lt hxb (by norm_num)
      | exact lt_of_le_of_lt hn (by norm_num)
      | exact lt_of_le_of_lt hnb (by norm_num)

/-- Witness for C8 at the extreme corner of the operating range. -/
theorem C8_no_overflow_witness :
    wrpll_a 3000000 5000 64 112 < 2 ^ 64 ∧
      1000000 * wrpll_diff 3000000 64 112 199 < 2 ^ 64 ∧
      wrpll_cross 64 112 (wrpll_diff 3000000 64 112 199) < 2 ^ 64 ∧
      wrpll_nrr 199 112 < 2 ^ 32 := by
  have h := C8_no_overflow 3000000 5000 112 199 64 112 199 64 (by decide) (by decide)
    (by decide) (by decide) (by decide) (by decide) (by decide) (by decide)
  exact ⟨h.1, h.2.2.2.2.1, h.2.2.2.2.2.2.1, h.2.2.2.2.2.2.2.2.1⟩

/-! Claim C3: harness reporting, continuation and exit status. -/

/-- Running the harness loop is the accumulator followed by the reports
of all processed rows: no row aborts the loop. -/
theorem harness_run_eq (tbl : List wrpll_tmds_clock) (acc : List mismatch_report) :
    harness_run tbl acc = acc ++ tbl.filterMap harness_report := by
  induction tbl generalizing acc with
  | nil => simp [harness_run]
  | cons e tbl ih =>
      simp only [harness_run, List.filterMap_cons]
      rcases h : harness_report e with _ | r <;>
        simp [h, ih, Option.toList]

/-- Report of a row is empty exactly when the recomputed triplet equals
the reference triplet. -/
theorem harness_report_eq_none (e : wrpll_tmds_clock) :
    harness_report e = none ↔ wrpll_compute_rnp e.clock = ⟨e.p, e.n2, e.r2⟩ := by
  unfold harness_report
  rcases h : wrpll_compute_rnp e.clock with ⟨cp, cn2, cr2⟩
  simp only [wrpll_rnp.mk.injEq]
  split_ifs with hc
  · simp only [false_iff]
    intro heq
    obtain ⟨h1, h2, h3⟩ := heq
    rcases hc with h | h | h <;> omega
  · push_neg at hc
    simp only [true_iff]
    obtain ⟨h1, h2, h3⟩ := hc
    exact ⟨h3.symm, h2.symm, h1.symm⟩

/-- Report of a mismatching row carries the frequency value
clock * 1000 and the two triplets. -/
theorem harness_report_eq_some (e : wrpll_tmds_clock)
    (h : wrpll_compute_rnp e.clock ≠ ⟨e.p, e.n2, e.r2⟩) :
    harness_report e =
      some ⟨(e.clock : Int) * 1000, ⟨e.p, e.n2, e.r2⟩, wrpll_compute_rnp e.clock⟩ := by
  rcases h2 : harness_report e with _ | r
  · exact absurd ((harness_report_eq_none e).mp h2) h
  · unfold harness_report at h2
    simp only at h2
    split_ifs at h2
    exact h2.symm

/-- Claim C3 (amended): the harness processes every table row (it does
not abort on a mismatch), reports each mismatching row with the value
clock * 1000 — one thousand times the input frequency in Hz — together
with the expected and the computed triplet, and the exit status is zero
exactly when every row matches. -/
theorem C3_harness_behaviour (tbl : List wrpll_tmds_clock) :
    harness_run tbl [] = tbl.filterMap harness_report ∧
      (∀ e ∈ tbl, wrpll_compute_rnp e.clock ≠ ⟨e.p, e.n2, e.r2⟩ →
        (⟨(e.clock : Int) * 1000, ⟨e.p, e.n2, e.r2⟩, wrpll_compute_rnp e.clock⟩ :
            mismatch_report) ∈ harness_run tbl []) ∧
      (harness_exit_status tbl = 0 ↔
        ∀ e ∈ tbl, wrpll_compute_rnp e.clock = ⟨e.p, e.n2, e.r2⟩) := by
  refine ⟨harness_run_eq tbl [], ?_, ?_⟩
  · intro e he hne
    rw [harness_run_eq tbl []]
    simp only [List.nil_append]
    exact List.mem_filterMap.mpr ⟨e, he, harness_report_eq_some e hne⟩
  · unfold harness_exit_status
    rw [harness_run_eq tbl []]
    simp only [List.nil_append]
    constructor
    · intro h e he
      by_cases hz : tbl.filterMap harness_report = []
      · exact (harness_report_eq_none e).mp (List.filterMap_eq_nil_iff.mp hz e he)
      · simp [hz] at h
    · intro h
      have : tbl.filterMap harness_report = [] :=
        List.filterMap_eq_nil_iff.mpr fun e he => (harness_report_eq_none e).mpr (h e he)
      simp [this]

/-- Witness for C3: on a one-row table whose reference triplet is wrong
the harness emits the report with frequency value clock * 1000. -/
theorem C3_harness_behaviour_witness :
    wrpll_compute_rnp 540000000 ≠ ⟨3, 3, 3⟩ ∧
      (⟨(540000000 : Int) * 1000, ⟨3, 3, 3⟩, wrpll_compute_rnp 540000000⟩ :
          mismatch_report) ∈ harness_run [⟨540000000, 3, 3, 3⟩] [] :=
  ⟨by decide,
    (C3_harness_behaviour [⟨540000000, 3, 3, 3⟩]).2.1 ⟨540000000, 3, 3, 3⟩
      (by decide) (by decide)⟩

/-- Counterexample to C3 as stated: on a table whose single row is the
bypass clock 540000000 Hz with a wrong reference triplet, the harness
report carries the frequency value 540000000000, not the input
frequency 540000000 Hz. -/
theorem C3_harness_behaviour_cex :
    harness_run [⟨540000000, 3, 3, 3⟩] [] =
        [⟨540000000000, ⟨3, 3, 3⟩, ⟨1, 2, 2⟩⟩] ∧
      (540000000000 : Int) ≠ (540000000 : Int) := by
  constructor
  · decide
  · decide

/-! Flattened candidate enumeration.  The nested loops of the search
visit the triples of candList in order; folding the update rule over
candList is the loop nest. -/

/-- One update step on a flattened candidate triple (r2, n2, p). -/
def updStep (freq2k budget : Nat) (best : wrpll_rnp) (y : Nat × Nat × Nat) : wrpll_rnp :=
  wrpll_update_rnp freq2k budget y.1 y.2.1 y.2.2 best

/-- Candidate triples (r2, n2, p) in enumeration order. -/
def candList : List (Nat × Nat × Nat) :=
  r2List.flatMap fun r2 => (n2List r2).flatMap fun n2 => pList.map fun p => (r2, n2, p)

/-- One update step keeps the record or adopts the candidate. -/
theorem updStep_mem (freq2k budget : Nat) (b : wrpll_rnp) (y : Nat × Nat × Nat) :
    updStep freq2k budget b y = b ∨ updStep freq2k budget b y = ⟨y.2.2, y.2.1, y.1⟩ :=
  wrpll_update_rnp_mem freq2k budget y.1 y.2.1 y.2.2 b

/-- One update step on the zero sentinel adopts the candidate. -/
theorem updStep_sentinel (freq2k budget : Nat) (y : Nat × Nat × Nat) :
    updStep freq2k budget ⟨0, 0, 0⟩ y = ⟨y.2.2, y.2.1, y.1⟩ :=
  wrpll_update_rnp_sentinel freq2k budget y.1 y.2.1 y.2.2 ⟨0, 0, 0⟩ rfl

/-- Folding over a concatenation of blocks is folding blockwise. -/
theorem foldl_flatMap {α β γ : Type} (l : List α) (g : α → List β) (F : γ → β → γ) (a : γ) :
    (l.flatMap g).foldl F a = l.foldl (fun acc x => (g x).foldl F acc) a := by
  induction l generalizing a with
  | nil => rfl
  | cons x l ih => simp [List.flatMap_cons, List.foldl_append, ih]

/-- Away from the bypass, the search is the fold of the update rule
over the flattened candidate list. -/
theorem core_eq_foldl (freq2k budget : Nat) (h : freq2k ≠ 5400000) :
    wrpll_compute_rnp_core freq2k budget =
      candList.foldl (updStep freq2k budget) ⟨0, 0, 0⟩ := by
  unfold wrpll_compute_rnp_core
  rw [if_neg h]
  simp only [candList, foldl_flatMap, List.foldl_map, updStep]

/-- Membership in candList exposes the three loop coordinates. -/
theorem candList_mem {y : Nat × Nat × Nat} (hy : y ∈ candList) :
    y.1 ∈ r2List ∧ y.2.1 ∈ n2List y.1 ∧ y.2.2 ∈ pList := by
  simp only [candList, List.mem_flatMap, List.mem_map] at hy
  obtain ⟨r2, hr2, n2, hn2, p, hp, rfl⟩ := hy
  exact ⟨hr2, hn2, hp⟩

/-- Evaluation of the r2 range: the loop runs from 14 to 112. -/
theorem r2List_eq : r2List = List.range' 14 99 := by decide

/-- Evaluation of the p range: the loop runs over 2, 4, ..., 64. -/
theorem pList_eq : pList = List.range' 2 32 2 := by decide

/-- Bounds of the r2 loop. -/
theorem r2List_bounds {r2 : Nat} (h : r2 ∈ r2List) : 14 ≤ r2 ∧ r2 ≤ 112 := by
  rw [r2List_eq, List.mem_range'] at h
  obtain ⟨i, hi, rfl⟩ := h
  omega

/-- Lower end of an n2 row lies below its upper end once r2 is at
least 2. -/
theorem n2_lo_le_hi {r2 : Nat} (h : 2 ≤ r2) :
    VCO_MIN * r2 / LC_FREQ + 1 ≤ VCO_MAX * r2 / LC_FREQ := by
  have h1 : (VCO_MIN * r2 + LC_FREQ) / LC_FREQ = VCO_MIN * r2 / LC_FREQ + 1 :=
    Nat.add_div_right _ (by decide)
  have h2 : VCO_MIN * r2 + LC_FREQ ≤ VCO_MAX * r2 := by
    simp only [VCO_MIN, VCO_MAX, LC_FREQ]
    omega
  calc VCO_MIN * r2 / LC_FREQ + 1 = (VCO_MIN * r2 + LC_FREQ) / LC_FREQ := h1.symm
    _ ≤ VCO_MAX * r2 / LC_FREQ := Nat.div_le_div_right h2

/-- Bounds of the n2 loop for a given r2. -/
theorem n2List_bounds {r2 n2 : Nat} (hr2 : 2 ≤ r2) (h : n2 ∈ n2List r2) :
    VCO_MIN * r2 / LC_FREQ + 1 ≤ n2 ∧ n2 ≤ VCO_MAX * r2 / LC_FREQ := by
  have hlh := n2_lo_le_hi hr2
  unfold n2List at h
  rw [List.mem_range'] at h
  obtain ⟨i, hi, rfl⟩ := h
  omega

/-- Bounds and parity of the p loop. -/
theorem pList_bounds {p : Nat} (h : p ∈ pList) : 2 ≤ p ∧ p ≤ 64 ∧ p % 2 = 0 := by
  rw [pList_eq, List.mem_range'] at h
  obtain ⟨i, hi, rfl⟩ := h
  omega

/-- Invariant preservation along the fold: any property holding of all
candidates of the processed list holds of the final record, with the
zero sentinel allowed only as the initial value of a nonempty fold. -/
theorem foldl_updStep_invariant (freq2k budget : Nat) (S : wrpll_rnp → Prop)
    (l : List (Nat × Nat × Nat)) (b0 : wrpll_rnp)
    (hl : ∀ y ∈ l, S ⟨y.2.2, y.2.1, y.1⟩)
    (hinit : S b0 ∨ (b0 = ⟨0, 0, 0⟩ ∧ l ≠ [])) :
    S (l.foldl (updStep freq2k budget) b0) := by
  induction l generalizing b0 with
  | nil =>
      rcases hinit with h | ⟨_, hne⟩
      · exact h
      · exact absurd rfl hne
  | cons y l ih =>
      have hy : S ⟨y.2.2, y.2.1, y.1⟩ := hl y (List.mem_cons_self y l)
      have htail : ∀ z ∈ l, S ⟨z.2.2, z.2.1, z.1⟩ :=
        fun z hz => hl z (List.mem_cons_of_mem y hz)
      simp only [List.foldl_cons]
      rcases hinit with hS | ⟨rfl, _⟩
      · rcases updStep_mem freq2k budget b0 y with he | he
        · exact ih _ htail (Or.inl (by rw [he]; exact hS))
        · exact ih _ htail (Or.inl (by rw [he]; exact hy))
      · exact ih _ htail (Or.inl (by rw [updStep_sentinel]; exact hy))

/-- Head candidate of the enumeration. -/
theorem candList_has_first : ((14 : Nat), (13 : Nat), (2 : Nat)) ∈ candList := by
  simp only [candList, List.mem_flatMap, List.mem_map]
  exact ⟨14, by decide, 13, by decide, 2, by decide, rfl⟩

/-- Claim C5: for every positive clock that does not take the bypass
path, the returned triplet is strictly positive in all components,
r2 lies between LC_FREQ * 2 / REF_MAX + 1 and LC_FREQ * 2 / REF_MIN
(that is, between 14 and 112), n2 lies between
VCO_MIN * r2 / LC_FREQ + 1 and VCO_MAX * r2 / LC_FREQ for the returned
r2, p is an even value between 2 and 64, and the zero sentinel triplet
is never returned. -/
theorem C5_range_validity (clock : Nat) (hpos : 0 < clock)
    (hbyp : clock / 100 ≠ 5400000) :
    (0 < (wrpll_compute_rnp clock).p ∧ 0 < (wrpll_compute_rnp clock).n2 ∧
      0 < (wrpll_compute_rnp clock).r2) ∧
    (LC_FREQ * 2 / REF_MAX + 1 ≤ (wrpll_compute_rnp clock).r2 ∧
      (wrpll_compute_rnp clock).r2 ≤ LC_FREQ * 2 / REF_MIN) ∧
    (14 ≤ (wrpll_compute_rnp clock).r2 ∧ (wrpll_compute_rnp clock).r2 ≤ 112) ∧
    (VCO_MIN * (wrpll_compute_rnp clock).r2 / LC_FREQ + 1 ≤ (wrpll_compute_rnp clock).n2 ∧
      (wrpll_compute_rnp clock).n2 ≤ VCO_MAX * (wrpll_compute_rnp clock).r2 / LC_FREQ) ∧
    (2 ≤ (wrpll_compute_rnp clock).p ∧ (wrpll_compute_rnp clock).p ≤ 64 ∧
      (wrpll_compute_rnp clock).p % 2 = 0) ∧
    wrpll_compute_rnp clock ≠ ⟨0, 0, 0⟩ := by
  have hS : 14 ≤ (wrpll_compute_rnp clock).r2 ∧ (wrpll_compute_rnp clock).r2 ≤ 112 ∧
      VCO_MIN * (wrpll_compute_rnp clock).r2 / LC_FREQ + 1 ≤ (wrpll_compute_rnp clock).n2 ∧
      (wrpll_compute_rnp clock).n2 ≤ VCO_MAX * (wrpll_compute_rnp clock).r2 / LC_FREQ ∧
      2 ≤ (wrpll_compute_rnp clock).p ∧ (wrpll_compute_rnp clock).p ≤ 64 ∧
      (wrpll_compute_rnp clock).p % 2 = 0 := by
    unfold wrpll_compute_rnp
    rw [core_eq_foldl _ _ hbyp]
    exact foldl_updStep_invariant _ _
      (fun b => 14 ≤ b.r2 ∧ b.r2 ≤ 112 ∧
        VCO_MIN * b.r2 / LC_FREQ + 1 ≤ b.n2 ∧ b.n2 ≤ VCO_MAX * b.r2 / LC_FREQ ∧
        2 ≤ b.p ∧ b.p ≤ 64 ∧ b.p % 2 = 0)
      candList ⟨0, 0, 0⟩
      (fun y hy => by
        obtain ⟨hr2, hn2, hp⟩ := candList_mem hy
        obtain ⟨hr2a, hr2b⟩ := r2List_bounds hr2
        obtain ⟨hn2a, hn2b⟩ := n2List_bounds (by omega) hn2
        obtain ⟨hpa, hpb, hpc⟩ := pList_bounds hp
        exact ⟨hr2a, hr2b, hn2a, hn2b, hpa, hpb, hpc⟩)
      (Or.inr ⟨rfl, List.ne_nil_of_mem candList_has_first⟩)
  obtain ⟨h1, h2, h3, h4, h5, h6, h7⟩ := hS
  have h14 : LC_FREQ * 2 / REF_MAX + 1 = 14 := by decide
  have h112 : LC_FREQ * 2 / REF_MIN = 112 := by decide
  refine ⟨⟨by omega, Nat.lt_of_lt_of_le (Nat.succ_pos _) h3, by omega⟩,
    ⟨by rw [h14]; exact h1, by rw [h112]; exact h2⟩, ⟨h1, h2⟩, ⟨h3, h4⟩,
    ⟨h5, h6, h7⟩, ?_⟩
  intro hzero
  rw [hzero] at h5
  simp at h5

/-- Witness for C5 at clock 19750000. -/
theorem C5_range_validity_witness :
    0 < 19750000 ∧ 19750000 / 100 ≠ 5400000 ∧
      (14 ≤ (wrpll_compute_rnp 19750000).r2 ∧ (wrpll_compute_rnp 19750000).r2 ≤ 112) ∧
      wrpll_compute_rnp 19750000 ≠ ⟨0, 0, 0⟩ :=
  ⟨by decide, by decide,
    (C5_range_validity 19750000 (by decide) (by decide)).2.2.1,
    (C5_range_validity 19750000 (by decide) (by decide)).2.2.2.2.2⟩

/-! Claim C1 needs the search result for each of the 373 table clocks.
Evaluating the full fold in the kernel is infeasible, so the proof goes
through a small per-frequency certificate: a Boolean check over the
(r2, n2) pairs of the enumeration that implies, by the bridge theorems
below, that the fold returns the reference triplet.  The check relies
on the selection policy: once any in-budget candidate exists, the fold
returns the first candidate attaining the maximal n2 / r2 ^ 2 among the
in-budget candidates; if none exists, it returns the first candidate of
minimal relative error.  Per pair, membership of the error interval is
decided by two divisions instead of a loop over p. -/

def nmax (a b : Nat) : Nat := cond (Nat.ble a b) b a

def nmin (a b : Nat) : Nat := cond (Nat.ble a b) a b

/-- True when no even p with 2 ≤ p satisfies lo ≤ p ≤ hi. -/
def noEvenBetween (lo hi : Nat) : Bool := Nat.blt hi (2 * ((nmax lo 2 + 1) / 2))

/-- True when no even p in [2, 64] is within budget at this pair:
with D1 = f * r2 * (1000000 + B), D2 = f * r2 * (1000000 - B) and
M6 = 1000000 * LC_FREQ_2K * n2, a p is within budget iff
ceil(M6 / D1) ≤ p ≤ floor(M6 / D2). -/
def noInB (D1 D2 M6 : Nat) : Bool := noEvenBetween ((M6 + D1 - 1) / D1) (nmin (M6 / D2) 64)

/-- Pair check for rows before the reference pair (in-budget case):
either the pair's quality n2 / r2 ^ 2 is strictly below the reference
quality (cross-multiplied), or no p of the pair is within budget. -/
def pairS (D1 D2 tr2sq tq n2 : Nat) : Bool :=
  Nat.blt (n2 * tr2sq) tq || noInB D1 D2 (5400000000000 * n2)

/-- Pair check for rows after the reference pair (in-budget case):
quality at most the reference quality, or no p within budget. -/
def pairN (D1 D2 tr2sq tq n2 : Nat) : Bool :=
  Nat.ble (n2 * tr2sq) tq || noInB D1 D2 (5400000000000 * n2)

/-- Check at the reference pair (in-budget case): the reference p is
within budget and no smaller even p is. -/
def tPairOK (D1 D2 tp M6 : Nat) : Bool :=
  Nat.ble ((M6 + D1 - 1) / D1) tp && Nat.ble tp (M6 / D2) &&
    (Nat.beq tp 2 || Nat.blt (tp - 2) ((M6 + D1 - 1) / D1))

/-- Conjunction of g over hi, hi - 1, ..., hi - (m - 1). -/
def rowAll (g : Nat → Bool) (hi : Nat) : Nat → Bool :=
  Nat.rec true fun n ih => g (hi - n) && ih

/-- Row check for r2 < tr2 (in-budget case), with a shortcut when even
the largest n2 of the row has quality below the reference quality. -/
def rowCheckS (f B tr2sq tq r2 : Nat) : Bool :=
  Nat.blt ((VCO_MAX * r2 / LC_FREQ) * tr2sq) tq ||
    rowAll (pairS (f * r2 * (1000000 + B)) (f * r2 * (1000000 - B)) tr2sq tq)
      (VCO_MAX * r2 / LC_FREQ)
      (VCO_MAX * r2 / LC_FREQ + 1 - (VCO_MIN * r2 / LC_FREQ + 1))

/-- Row check for r2 > tr2 (in-budget case). -/
def rowCheckN (f B tr2sq tq r2 : Nat) : Bool :=
  Nat.ble ((VCO_MAX * r2 / LC_FREQ) * tr2sq) tq ||
    rowAll (pairN (f * r2 * (1000000 + B)) (f * r2 * (1000000 - B)) tr2sq tq)
      (VCO_MAX * r2 / LC_FREQ)
      (VCO_MAX * r2 / LC_FREQ + 1 - (VCO_MIN * r2 / LC_FREQ + 1))

/-- Row check for the reference row r2 = tr2 (in-budget case). -/
def rowCheckT (f B tp tn2 tr2sq tq r2 : Nat) : Bool :=
  rowAll (fun n2 =>
      cond (Nat.blt n2 tn2)
        (pairS (f * r2 * (1000000 + B)) (f * r2 * (1000000 - B)) tr2sq tq n2)
        (cond (Nat.blt tn2 n2)
          (pairN (f * r2 * (1000000 + B)) (f * r2 * (1000000 - B)) tr2sq tq n2)
          (tPairOK (f * r2 * (1000000 + B)) (f * r2 * (1000000 - B)) tp
            (5400000000000 * n2))))
    (VCO_MAX * r2 / LC_FREQ)
    (VCO_MAX * r2 / LC_FREQ + 1 - (VCO_MIN * r2 / LC_FREQ + 1))

/-- Row dispatch for the in-budget case. -/
def rowCheckInB (f B tp tn2 tr2 tr2sq r2 : Nat) : Bool :=
  cond (Nat.blt r2 tr2) (rowCheckS f B tr2sq (tn2 * (r2 * r2)) r2)
    (cond (Nat.blt tr2 r2) (rowCheckN f B tr2sq (tn2 * (r2 * r2)) r2)
      (rowCheckT f B tp tn2 tr2sq (tn2 * (r2 * r2)) r2))

/-- Certificate for a frequency whose reference triplet is within
budget. -/
def checkFreqInB (f B tp tn2 tr2 : Nat) : Bool :=
  rowAll (rowCheckInB f B tp tn2 tr2 (tr2 * tr2)) 112 99

/-- True when no even p in [2, 64] has relative error at most the
reference error: with A1 = r2 * (f * P + W), A2 = r2 * (f * P - W) and
N = LC_FREQ_2K * P * n2, error at most the reference error means
ceil(N / A1) ≤ p ≤ floor(N / A2). -/
def pairELe (A1 A2 N : Nat) : Bool :=
  noEvenBetween ((N + A1 - 1) / A1) (nmin (N / A2) 64)

/-- True when no even p in [2, 64] has relative error strictly below
the reference error: that means N / A1 < p and p * A2 < N. -/
def pairELt (A1 A2 N : Nat) : Bool :=
  noEvenBetween (N / A1 + 1) (nmin ((N - 1) / A2) 64)

/-- Check at the reference pair (over-budget case): no even p before tp
has error at most the reference error, and no even p after tp has
error strictly below it. -/
def tPairE (A1 A2 tp N : Nat) : Bool :=
  (Nat.beq tp 2 || noEvenBetween ((N + A1 - 1) / A1) (nmin (N / A2) (tp - 2))) &&
    noEvenBetween (nmax (N / A1 + 1) (tp + 2)) (nmin ((N - 1) / A2) 64)

/-- Row check for r2 < tr2 (over-budget case): no p of the pair may
have relative error at most the reference error.  No candidate within
budget needs excluding separately: when the reference triplet is over
budget, an in-budget candidate would have error strictly below the
reference error and is already excluded here. -/
def rowCheckEb (w1 w2 LP r2 : Nat) : Bool :=
  rowAll (fun n2 => pairELe (r2 * w1) (r2 * w2) (LP * n2))
    (VCO_MAX * r2 / LC_FREQ)
    (VCO_MAX * r2 / LC_FREQ + 1 - (VCO_MIN * r2 / LC_FREQ + 1))

/-- Row check for r2 > tr2 (over-budget case). -/
def rowCheckEa (w1 w2 LP r2 : Nat) : Bool :=
  rowAll (fun n2 => pairELt (r2 * w1) (r2 * w2) (LP * n2))
    (VCO_MAX * r2 / LC_FREQ)
    (VCO_MAX * r2 / LC_FREQ + 1 - (VCO_MIN * r2 / LC_FREQ + 1))

/-- Row check for the reference row (over-budget case). -/
def rowCheckET (w1 w2 LP tp tn2 r2 : Nat) : Bool :=
  rowAll (fun n2 =>
      cond (Nat.blt n2 tn2) (pairELe (r2 * w1) (r2 * w2) (LP * n2))
        (cond (Nat.blt tn2 n2) (pairELt (r2 * w1) (r2 * w2) (LP * n2))
          (tPairE (r2 * w1) (r2 * w2) tp (LP * n2))))
    (VCO_MAX * r2 / LC_FREQ)
    (VCO_MAX * r2 / LC_FREQ + 1 - (VCO_MIN * r2 / LC_FREQ + 1))

/-- Row dispatch for the over-budget case. -/
def rowCheckNoB (tp tn2 tr2 w1 w2 LP r2 : Nat) : Bool :=
  cond (Nat.blt r2 tr2) (rowCheckEb w1 w2 LP r2)
    (cond (Nat.blt tr2 r2) (rowCheckEa w1 w2 LP r2)
      (rowCheckET w1 w2 LP tp tn2 r2))

/-- Certificate for a frequency whose reference triplet is over
budget. -/
def checkFreqNoB (f tp tn2 tr2 : Nat) : Bool :=
  Nat.blt 0 (wrpll_diff f tp tr2 tn2) &&
    Nat.blt (wrpll_diff f tp tr2 tn2) (f * (tp * tr2)) &&
    rowAll
      (rowCheckNoB tp tn2 tr2 (f * (tp * tr2) + wrpll_diff f tp tr2 tn2)
        (f * (tp * tr2) - wrpll_diff f tp tr2 tn2) (5400000 * (tp * tr2)))
      112 99

/-- Certificate for one table row: sanity bounds on the clock, the
budget and the reference triplet, then the per-frequency certificate of
the applicable case. -/
def entryCheck (e : wrpll_tmds_clock) : Bool :=
  let f := e.clock / 100
  let B := wrpll_get_budget_for_freq (e.clock : Int)
  Nat.blt 0 f && Nat.blt f 5400000 && Nat.ble B 5000 &&
    (Nat.ble 14 e.r2 && Nat.ble e.r2 112) &&
    (Nat.ble (VCO_MIN * e.r2 / LC_FREQ + 1) e.n2 &&
      Nat.ble e.n2 (VCO_MAX * e.r2 / LC_FREQ)) &&
    (Nat.ble 2 e.p && Nat.ble e.p 64 && Nat.beq (e.p % 2) 0) &&
    cond (Nat.ble (1000000 * wrpll_diff f e.p e.r2 e.n2) (f * B * e.p * e.r2))
      (checkFreqInB f B e.p e.n2 e.r2)
      (checkFreqNoB f e.p e.n2 e.r2)

/-- Certificate for the whole reference table. -/
def tableCheck : Bool := wrpll_tmds_clock_table.all entryCheck

/-! Extraction lemmas: from a true certificate to facts about every
loop position. -/

/-- Evaluation rule of the certificate loop. -/
theorem rowAll_succ (g : Nat → Bool) (hi n : Nat) :
    rowAll g hi (n + 1) = (g (hi - n) && rowAll g hi n) := rfl

/-- True certificate loops make every visited position true. -/
theorem rowAll_true {g : Nat → Bool} {hi : Nat} :
    ∀ {m : Nat}, rowAll g hi m = true → ∀ k, k < m → g (hi - k) = true := by
  intro m
  induction m with
  | zero => intro _ k hk; omega
  | succ n ih =>
      intro h k hk
      rw [rowAll_succ, Bool.and_eq_true] at h
      rcases Nat.lt_succ_iff_lt_or_eq.mp hk with h2 | h2
      · exact ih h.2 k h2
      · rw [h2]; exact h.1

/-- Computable maximum agrees with the standard one. -/
theorem nmax_eq (a b : Nat) : nmax a b = max a b := by
  unfold nmax
  cases h : Nat.ble a b
  · have hnot : ¬ a ≤ b := by
      intro hc
      rw [Nat.ble_eq_true_of_le hc] at h
      cases h
    rw [Bool.cond_false, Nat.max_def, if_neg hnot]
  · have hle : a ≤ b := Nat.le_of_ble_eq_true h
    rw [Bool.cond_true, Nat.max_def, if_pos hle]

/-- Computable minimum agrees with the standard one. -/
theorem nmin_eq (a b : Nat) : nmin a b = min a b := by
  unfold nmin
  cases h : Nat.ble a b
  · have hnot : ¬ a ≤ b := by
      intro hc
      rw [Nat.ble_eq_true_of_le hc] at h
      cases h
    rw [Bool.cond_false, Nat.min_def, if_neg hnot]
  · have hle : a ≤ b := Nat.le_of_ble_eq_true h
    rw [Bool.cond_true, Nat.min_def, if_pos hle]

/-- Correctness of the even-free interval test. -/
theorem noEvenBetween_spec {lo hi : Nat} (h : noEvenBetween lo hi = true) :
    ∀ p, p % 2 = 0 → 2 ≤ p → lo ≤ p → p ≤ hi → False := by
  intro p hp h2 hlo hhi
  unfold noEvenBetween at h
  rw [nmax_eq, Nat.blt_eq] at h
  omega

/-- Ceiling division against a lower bound. -/
theorem ceil_div_le_iff {D M p : Nat} (hD : 0 < D) :
    (M + D - 1) / D ≤ p ↔ M ≤ p * D := by
  rw [Nat.div_le_iff_le_mul_add_pred hD, Nat.mul_comm D p]
  omega

/-- Floor division against an upper bound. -/
theorem le_floor_div_iff {D M p : Nat} (hD : 0 < D) :
    p ≤ M / D ↔ p * D ≤ M :=
  Nat.le_div_iff_mul_le hD

/-! Arithmetic characterizations: the budget test and the relative
error comparisons as interval conditions on p. -/

/-- Distributing a truncated difference over a product. -/
theorem nat_sub_mul (a b c : Nat) : (a - b) * c = a * c - b * c := by
  rw [Nat.mul_comm, Nat.mul_sub_left_distrib, Nat.mul_comm c a, Nat.mul_comm c b]

/-- Budget test as an interval condition: a candidate is within budget
exactly when the scaled feedback product lies between the two scaled
frequency products. -/
theorem inB_iff (f B r2 n2 p : Nat) (hB : B ≤ 1000000) :
    (1000000 * wrpll_diff f p r2 n2 ≤ wrpll_a f B p r2 ↔
      (p * (f * r2 * (1000000 - B)) ≤ 1000000 * (LC_FREQ_2K * n2) ∧
        1000000 * (LC_FREQ_2K * n2) ≤ p * (f * r2 * (1000000 + B)))) := by
  obtain ⟨s, hs⟩ : ∃ s, B + s = 1000000 := ⟨1000000 - B, by omega⟩
  have hsb : 1000000 - B = s := by omega
  have h1 : p * (f * r2 * s) + f * B * p * r2 = f * p * r2 * 1000000 := by
    have e : p * (f * r2 * s) + f * B * p * r2 = f * p * r2 * (B + s) := by ring
    rw [e, hs]
  have h2 : p * (f * r2 * (1000000 + B)) = f * p * r2 * 1000000 + f * B * p * r2 := by
    ring
  rw [hsb]
  unfold wrpll_a wrpll_diff ABS_DIFF
  split <;> omega

/-- Comparison of relative errors, non-strict form: the candidate at p
has error at most W / P exactly when the scaled feedback product lies
in the closed interval around the scaled frequency product. -/
theorem eLe_iff (f P W r2 n2 p : Nat) (hW : W ≤ f * P) :
    (wrpll_diff f p r2 n2 * P ≤ W * (p * r2) ↔
      (p * (r2 * (f * P - W)) ≤ LC_FREQ_2K * P * n2 ∧
        LC_FREQ_2K * P * n2 ≤ p * (r2 * (f * P + W)))) := by
  obtain ⟨s, hs⟩ : ∃ s, W + s = f * P := ⟨f * P - W, by omega⟩
  have hsb : f * P - W = s := by omega
  have h1 : p * (r2 * s) + W * (p * r2) = f * p * r2 * P := by
    have e : p * (r2 * s) + W * (p * r2) = p * r2 * (W + s) := by ring
    rw [e, hs]
    ring
  have h2 : p * (r2 * (f * P + W)) = f * p * r2 * P + W * (p * r2) := by ring
  have h3 : LC_FREQ_2K * P * n2 = LC_FREQ_2K * n2 * P := by ring
  rw [hsb]
  unfold wrpll_diff ABS_DIFF
  split
  · rename_i hX
    have h4 : (f * p * r2 - LC_FREQ_2K * n2) * P =
        f * p * r2 * P - LC_FREQ_2K * n2 * P := nat_sub_mul _ _ _
    have h5 : LC_FREQ_2K * n2 * P ≤ f * p * r2 * P :=
      Nat.mul_le_mul_right P (Nat.le_of_lt hX)
    omega
  · rename_i hX
    have h4 : (LC_FREQ_2K * n2 - f * p * r2) * P =
        LC_FREQ_2K * n2 * P - f * p * r2 * P := nat_sub_mul _ _ _
    have h5 : f * p * r2 * P ≤ LC_FREQ_2K * n2 * P :=
      Nat.mul_le_mul_right P (Nat.le_of_not_lt hX)
    omega

/-- Comparison of relative errors, strict form. -/
theorem eLt_iff (f P W r2 n2 p : Nat) (hW : W ≤ f * P) :
    (wrpll_diff f p r2 n2 * P < W * (p * r2) ↔
      (p * (r2 * (f * P - W)) < LC_FREQ_2K * P * n2 ∧
        LC_FREQ_2K * P * n2 < p * (r2 * (f * P + W)))) := by
  obtain ⟨s, hs⟩ : ∃ s, W + s = f * P := ⟨f * P - W, by omega⟩
  have hsb : f * P - W = s := by omega
  have h1 : p * (r2 * s) + W * (p * r2) = f * p * r2 * P := by
    have e : p * (r2 * s) + W * (p * r2) = p * r2 * (W + s) := by ring
    rw [e, hs]
    ring
  have h2 : p * (r2 * (f * P + W)) = f * p * r2 * P + W * (p * r2) := by ring
  have h3 : LC_FREQ_2K * P * n2 = LC_FREQ_2K * n2 * P := by ring
  rw [hsb]
  unfold wrpll_diff ABS_DIFF
  split
  · rename_i hX
    have h4 : (f * p * r2 - LC_FREQ_2K * n2) * P =
        f * p * r2 * P - LC_FREQ_2K * n2 * P := nat_sub_mul _ _ _
    have h5 : LC_FREQ_2K * n2 * P ≤ f * p * r2 * P :=
      Nat.mul_le_mul_right P (Nat.le_of_lt hX)
    omega
  · rename_i hX
    have h4 : (LC_FREQ_2K * n2 - f * p * r2) * P =
        LC_FREQ_2K * n2 * P - f * p * r2 * P := nat_sub_mul _ _ _
    have h5 : f * p * r2 * P ≤ LC_FREQ_2K * n2 * P :=
      Nat.mul_le_mul_right P (Nat.le_of_not_lt hX)
    omega

/-! Correctness of the per-pair certificates. -/

/-- Correctness of noInB: no even p in [2, 64] lies in the budget
interval of the pair. -/
theorem noInB_spec {D1 D2 M6 : Nat} (hD1 : 0 < D1) (hD2 : 0 < D2)
    (h : noInB D1 D2 M6 = true) :
    ∀ p, p % 2 = 0 → 2 ≤ p → p ≤ 64 → ¬(M6 ≤ p * D1 ∧ p * D2 ≤ M6) := by
  intro p hp h2 h64 hiv
  unfold noInB at h
  refine noEvenBetween_spec h p hp h2 ((ceil_div_le_iff hD1).mpr hiv.1) ?_
  rw [nmin_eq]
  exact le_min ((le_floor_div_iff hD2).mpr hiv.2) h64

/-- Correctness of tPairOK: the reference p is within budget and no
smaller even p is. -/
theorem tPairOK_spec {D1 D2 tp M6 : Nat} (hD1 : 0 < D1) (hD2 : 0 < D2)
    (htp : tp % 2 = 0) (h : tPairOK D1 D2 tp M6 = true) :
    (M6 ≤ tp * D1 ∧ tp * D2 ≤ M6) ∧
      ∀ p, p % 2 = 0 → 2 ≤ p → p < tp → ¬(M6 ≤ p * D1 ∧ p * D2 ≤ M6) := by
  unfold tPairOK at h
  simp only [Bool.and_eq_true, Bool.or_eq_true, Nat.ble_eq, Nat.blt_eq, Nat.beq_eq] at h
  obtain ⟨⟨hc, hf⟩, hthird⟩ := h
  refine ⟨⟨(ceil_div_le_iff hD1).mp hc, (le_floor_div_iff hD2).mp hf⟩, ?_⟩
  intro p hp h2 hlt hiv
  have hcp : (M6 + D1 - 1) / D1 ≤ p := (ceil_div_le_iff hD1).mpr hiv.1
  rcases hthird with h2' | h2'
  · omega
  · omega

/-- Correctness of pairS: quality strictly below the reference quality,
or no p of the pair within budget. -/
theorem pairS_spec {D1 D2 tr2sq tq n2 : Nat} (hD1 : 0 < D1) (hD2 : 0 < D2)
    (h : pairS D1 D2 tr2sq tq n2 = true) :
    n2 * tr2sq < tq ∨
      ∀ p, p % 2 = 0 → 2 ≤ p → p ≤ 64 →
        ¬(5400000000000 * n2 ≤ p * D1 ∧ p * D2 ≤ 5400000000000 * n2) := by
  unfold pairS at h
  rw [Bool.or_eq_true] at h
  rcases h with h1 | h1
  · exact Or.inl (by rw [Nat.blt_eq] at h1; exact h1)
  · exact Or.inr (noInB_spec hD1 hD2 h1)

/-- Correctness of pairN: quality at most the reference quality, or no
p of the pair within budget. -/
theorem pairN_spec {D1 D2 tr2sq tq n2 : Nat} (hD1 : 0 < D1) (hD2 : 0 < D2)
    (h : pairN D1 D2 tr2sq tq n2 = true) :
    n2 * tr2sq ≤ tq ∨
      ∀ p, p % 2 = 0 → 2 ≤ p → p ≤ 64 →
        ¬(5400000000000 * n2 ≤ p * D1 ∧ p * D2 ≤ 5400000000000 * n2) := by
  unfold pairN at h
  rw [Bool.or_eq_true] at h
  rcases h with h1 | h1
  · exact Or.inl (by rw [Nat.ble_eq] at h1; exact h1)
  · exact Or.inr (noInB_spec hD1 hD2 h1)

/-- Correctness of pairELe: no even p in [2, 64] lies in the closed
error interval of the pair. -/
theorem pairELe_spec {A1 A2 N : Nat} (hA1 : 0 < A1) (hA2 : 0 < A2)
    (h : pairELe A1 A2 N = true) :
    ∀ p, p % 2 = 0 → 2 ≤ p → p ≤ 64 → ¬(N ≤ p * A1 ∧ p * A2 ≤ N) := by
  intro p hp h2 h64 hiv
  unfold pairELe at h
  refine noEvenBetween_spec h p hp h2 ((ceil_div_le_iff hA1).mpr hiv.1) ?_
  rw [nmin_eq]
  exact le_min ((le_floor_div_iff hA2).mpr hiv.2) h64

/-- Correctness of pairELt: no even p in [2, 64] lies in the open error
interval of the pair. -/
theorem pairELt_spec {A1 A2 N : Nat} (hA1 : 0 < A1) (hA2 : 0 < A2)
    (h : pairELt A1 A2 N = true) :
    ∀ p, p % 2 = 0 → 2 ≤ p → p ≤ 64 → ¬(N < p * A1 ∧ p * A2 < N) := by
  intro p hp h2 h64 hiv
  unfold pairELt at h
  have hlo : N / A1 + 1 ≤ p := by
    have := (Nat.div_lt_iff_lt_mul hA1).mpr hiv.1
    omega
  have hhb : p * A2 ≤ N - 1 := by omega
  refine noEvenBetween_spec h p hp h2 hlo ?_
  rw [nmin_eq]
  exact le_min ((le_floor_div_iff hA2).mpr hhb) h64

/-- Correctness of tPairE: no even p before tp has error at most the
reference error, and no even p after tp has error strictly below it. -/
theorem tPairE_spec {A1 A2 tp N : Nat} (hA1 : 0 < A1) (hA2 : 0 < A2)
    (htp : tp % 2 = 0) (h : tPairE A1 A2 tp N = true) :
    (∀ p, p % 2 = 0 → 2 ≤ p → p < tp → ¬(N ≤ p * A1 ∧ p * A2 ≤ N)) ∧
      ∀ p, p % 2 = 0 → p ≤ 64 → tp < p → ¬(N < p * A1 ∧ p * A2 < N) := by
  unfold tPairE at h
  rw [Bool.and_eq_true] at h
  obtain ⟨hfst, hsnd⟩ := h
  constructor
  · intro p hp h2 hlt hiv
    rw [Bool.or_eq_true] at hfst
    rcases hfst with h1 | h1
    · rw [Nat.beq_eq] at h1
      omega
    · refine noEvenBetween_spec h1 p hp h2 ((ceil_div_le_iff hA1).mpr hiv.1) ?_
      rw [nmin_eq]
      have : p ≤ tp - 2 := by omega
      exact le_min ((le_floor_div_iff hA2).mpr hiv.2) this
  · intro p hp h64 hgt hiv
    have h2 : 2 ≤ p := by omega
    have hlo1 : N / A1 + 1 ≤ p := by
      have := (Nat.div_lt_iff_lt_mul hA1).mpr hiv.1
      omega
    have hlo2 : tp + 2 ≤ p := by omega
    have hhb : p * A2 ≤ N - 1 := by omega
    refine noEvenBetween_spec hsnd p hp h2 ?_ ?_
    · rw [nmax_eq]
      exact Nat.max_le.mpr ⟨hlo1, hlo2⟩
    · rw [nmin_eq]
      exact le_min ((le_floor_div_iff hA2).mpr hhb) h64

/-! Case behaviour of the update rule, stated per branch. -/

/-- Within-budget candidate replaces an over-budget record. -/
theorem upd_adopt_cand_in_best_over (f B r2 n2 p : Nat) (b : wrpll_rnp)
    (hbp : b.p ≠ 0)
    (hin : 1000000 * wrpll_diff f p r2 n2 ≤ wrpll_a f B p r2)
    (hbover : wrpll_a f B b.p b.r2 < 1000000 * wrpll_diff f b.p b.r2 b.n2) :
    wrpll_update_rnp f B r2 n2 p b = ⟨p, n2, r2⟩ := by
  simp only [wrpll_update_rnp]
  split_ifs <;> first | rfl | omega

/-- Within-budget candidate of strictly larger quality replaces a
within-budget record. -/
theorem upd_adopt_both_in_q (f B r2 n2 p : Nat) (b : wrpll_rnp)
    (hbp : b.p ≠ 0)
    (hin : 1000000 * wrpll_diff f p r2 n2 ≤ wrpll_a f B p r2)
    (hbin : 1000000 * wrpll_diff f b.p b.r2 b.n2 ≤ wrpll_a f B b.p b.r2)
    (hq : wrpll_nrr n2 b.r2 > wrpll_nrr b.n2 r2) :
    wrpll_update_rnp f B r2 n2 p b = ⟨p, n2, r2⟩ := by
  simp only [wrpll_update_rnp]
  split_ifs <;> first | rfl | omega

/-- Over-budget candidate of strictly smaller relative error replaces
an over-budget record. -/
theorem upd_adopt_both_over_e (f B r2 n2 p : Nat) (b : wrpll_rnp)
    (hbp : b.p ≠ 0)
    (hover : wrpll_a f B p r2 < 1000000 * wrpll_diff f p r2 n2)
    (hbover : wrpll_a f B b.p b.r2 < 1000000 * wrpll_diff f b.p b.r2 b.n2)
    (he : wrpll_cross b.p b.r2 (wrpll_diff f p r2 n2) <
      wrpll_cross p r2 (wrpll_diff f b.p b.r2 b.n2)) :
    wrpll_update_rnp f B r2 n2 p b = ⟨p, n2, r2⟩ := by
  simp only [wrpll_update_rnp]
  split_ifs <;> first | rfl | omega

/-- Over-budget candidate never replaces a within-budget record. -/
theorem upd_keep_cand_over_best_in (f B r2 n2 p : Nat) (b : wrpll_rnp)
    (hbp : b.p ≠ 0)
    (hover : wrpll_a f B p r2 < 1000000 * wrpll_diff f p r2 n2)
    (hbin : 1000000 * wrpll_diff f b.p b.r2 b.n2 ≤ wrpll_a f B b.p b.r2) :
    wrpll_update_rnp f B r2 n2 p b = b := by
  simp only [wrpll_update_rnp]
  split_ifs <;> first | rfl | omega

/-- Within-budget candidate without strictly larger quality keeps a
within-budget record. -/
theorem upd_keep_both_in_q (f B r2 n2 p : Nat) (b : wrpll_rnp)
    (hbp : b.p ≠ 0)
    (hin : 1000000 * wrpll_diff f p r2 n2 ≤ wrpll_a f B p r2)
    (hbin : 1000000 * wrpll_diff f b.p b.r2 b.n2 ≤ wrpll_a f B b.p b.r2)
    (hq : ¬ wrpll_nrr n2 b.r2 > wrpll_nrr b.n2 r2) :
    wrpll_update_rnp f B r2 n2 p b = b := by
  simp only [wrpll_update_rnp]
  split_ifs <;> first | rfl | omega

/-- Over-budget candidate without strictly smaller error keeps an
over-budget record. -/
theorem upd_keep_both_over_e (f B r2 n2 p : Nat) (b : wrpll_rnp)
    (hbp : b.p ≠ 0)
    (hover : wrpll_a f B p r2 < 1000000 * wrpll_diff f p r2 n2)
    (hbover : wrpll_a f B b.p b.r2 < 1000000 * wrpll_diff f b.p b.r2 b.n2)
    (he : ¬ wrpll_cross b.p b.r2 (wrpll_diff f p r2 n2) <
      wrpll_cross p r2 (wrpll_diff f b.p b.r2 b.n2)) :
    wrpll_update_rnp f B r2 n2 p b = b := by
  simp only [wrpll_update_rnp]
  split_ifs <;> first | rfl | omega

/-! Row-level extraction for the in-budget certificate. -/

/-- No even p in [2, 64] of this pair is within budget. -/
def noInBFact (f B r2 n2 : Nat) : Prop :=
  ∀ p, p % 2 = 0 → 2 ≤ p → p ≤ 64 →
    ¬(5400000000000 * n2 ≤ p * (f * r2 * (1000000 + B)) ∧
      p * (f * r2 * (1000000 - B)) ≤ 5400000000000 * n2)

/-- Facts delivered at the reference pair: the reference p is within
budget and no smaller even p is. -/
def tPairFact (f B tp tn2 tr2 : Nat) : Prop :=
  (5400000000000 * tn2 ≤ tp * (f * tr2 * (1000000 + B)) ∧
    tp * (f * tr2 * (1000000 - B)) ≤ 5400000000000 * tn2) ∧
  ∀ p, p % 2 = 0 → 2 ≤ p → p < tp →
    ¬(5400000000000 * tn2 ≤ p * (f * tr2 * (1000000 + B)) ∧
      p * (f * tr2 * (1000000 - B)) ≤ 5400000000000 * tn2)

/-- Positivity of the interval denominators. -/
theorem D1_pos {f B r2 : Nat} (hf : 0 < f) (hr2 : 0 < r2) :
    0 < f * r2 * (1000000 + B) :=
  Nat.mul_pos (Nat.mul_pos hf hr2) (by omega)

/-- Positivity of the lower interval denominator. -/
theorem D2_pos {f B r2 : Nat} (hf : 0 < f) (hr2 : 0 < r2) (hB : B ≤ 5000) :
    0 < f * r2 * (1000000 - B) :=
  Nat.mul_pos (Nat.mul_pos hf hr2) (by omega)

/-- Row specification for r2 < tr2. -/
theorem rowCheckS_spec {f B tr2sq tq r2 : Nat} (hf : 0 < f) (hB : B ≤ 5000)
    (hr2 : 0 < r2) (h : rowCheckS f B tr2sq tq r2 = true) :
    ∀ n2, VCO_MIN * r2 / LC_FREQ + 1 ≤ n2 → n2 ≤ VCO_MAX * r2 / LC_FREQ →
      (n2 * tr2sq < tq ∨ noInBFact f B r2 n2) := by
  intro n2 hlo hhi
  unfold rowCheckS at h
  rw [Bool.or_eq_true] at h
  rcases h with h | h
  · rw [Nat.blt_eq] at h
    exact Or.inl (Nat.lt_of_le_of_lt (Nat.mul_le_mul_right tr2sq hhi) h)
  · have hk := rowAll_true h (VCO_MAX * r2 / LC_FREQ - n2) (by omega)
    have e : VCO_MAX * r2 / LC_FREQ - (VCO_MAX * r2 / LC_FREQ - n2) = n2 := by omega
    rw [e] at hk
    rcases pairS_spec (D1_pos hf hr2) (D2_pos hf hr2 hB) hk with h1 | h1
    · exact Or.inl h1
    · exact Or.inr fun p hp h2 h64 hiv => h1 p hp h2 h64 hiv

/-- Row specification for r2 > tr2. -/
theorem rowCheckN_spec {f B tr2sq tq r2 : Nat} (hf : 0 < f) (hB : B ≤ 5000)
    (hr2 : 0 < r2) (h : rowCheckN f B tr2sq tq r2 = true) :
    ∀ n2, VCO_MIN * r2 / LC_FREQ + 1 ≤ n2 → n2 ≤ VCO_MAX * r2 / LC_FREQ →
      (n2 * tr2sq ≤ tq ∨ noInBFact f B r2 n2) := by
  intro n2 hlo hhi
  unfold rowCheckN at h
  rw [Bool.or_eq_true] at h
  rcases h with h | h
  · rw [Nat.ble_eq] at h
    exact Or.inl (Nat.le_trans (Nat.mul_le_mul_right tr2sq hhi) h)
  · have hk := rowAll_true h (VCO_MAX * r2 / LC_FREQ - n2) (by omega)
    have e : VCO_MAX * r2 / LC_FREQ - (VCO_MAX * r2 / LC_FREQ - n2) = n2 := by omega
    rw [e] at hk
    rcases pairN_spec (D1_pos hf hr2) (D2_pos hf hr2 hB) hk with h1 | h1
    · exact Or.inl h1
    · exact Or.inr fun p hp h2 h64 hiv => h1 p hp h2 h64 hiv

/-- Row specification for the reference row. -/
theorem rowCheckT_spec {f B tp tn2 tr2sq tq r2 : Nat} (hf : 0 < f) (hB : B ≤ 5000)
    (hr2 : 0 < r2) (htp : tp % 2 = 0) (h : rowCheckT f B tp tn2 tr2sq tq r2 = true) :
    ∀ n2, VCO_MIN * r2 / LC_FREQ + 1 ≤ n2 → n2 ≤ VCO_MAX * r2 / LC_FREQ →
      (n2 < tn2 → (n2 * tr2sq < tq ∨ noInBFact f B r2 n2)) ∧
      (tn2 < n2 → (n2 * tr2sq ≤ tq ∨ noInBFact f B r2 n2)) ∧
      (n2 = tn2 →
        (5400000000000 * n2 ≤ tp * (f * r2 * (1000000 + B)) ∧
          tp * (f * r2 * (1000000 - B)) ≤ 5400000000000 * n2) ∧
        ∀ p, p % 2 = 0 → 2 ≤ p → p < tp →
          ¬(5400000000000 * n2 ≤ p * (f * r2 * (1000000 + B)) ∧
            p * (f * r2 * (1000000 - B)) ≤ 5400000000000 * n2)) := by
  intro n2 hlo hhi
  unfold rowCheckT at h
  have hk := rowAll_true h (VCO_MAX * r2 / LC_FREQ - n2) (by omega)
  have e : VCO_MAX * r2 / LC_FREQ - (VCO_MAX * r2 / LC_FREQ - n2) = n2 := by omega
  rw [e] at hk
  refine ⟨?_, ?_, ?_⟩
  · intro hn2
    have hb : Nat.blt n2 tn2 = true := by rw [Nat.blt_eq]; exact hn2
    rw [hb, Bool.cond_true] at hk
    rcases pairS_spec (D1_pos hf hr2) (D2_pos hf hr2 hB) hk with h1 | h1
    · exact Or.inl h1
    · exact Or.inr fun p hp h2 h64 hiv => h1 p hp h2 h64 hiv
  · intro hn2
    have hb : Nat.blt n2 tn2 = false :=
      Bool.eq_false_iff.mpr fun hc => by rw [Nat.blt_eq] at hc; omega
    have hb2 : Nat.blt tn2 n2 = true := by rw [Nat.blt_eq]; exact hn2
    rw [hb, Bool.cond_false, hb2, Bool.cond_true] at hk
    rcases pairN_spec (D1_pos hf hr2) (D2_pos hf hr2 hB) hk with h1 | h1
    · exact Or.inl h1
    · exact Or.inr fun p hp h2 h64 hiv => h1 p hp h2 h64 hiv
  · intro hn2
    have hb : Nat.blt n2 tn2 = false :=
      Bool.eq_false_iff.mpr fun hc => by rw [Nat.blt_eq] at hc; omega
    have hb2 : Nat.blt tn2 n2 = false :=
      Bool.eq_false_iff.mpr fun hc => by rw [Nat.blt_eq] at hc; omega
    rw [hb, Bool.cond_false, hb2, Bool.cond_false] at hk
    exact tPairOK_spec (D1_pos hf hr2) (D2_pos hf hr2 hB) htp hk

/-- Extraction of the whole in-budget certificate. -/
theorem checkFreqInB_spec {f B tp tn2 tr2 : Nat} (hf : 0 < f) (hB : B ≤ 5000)
    (htp : tp % 2 = 0) (h : checkFreqInB f B tp tn2 tr2 = true) :
    ∀ r2 n2, 14 ≤ r2 → r2 ≤ 112 →
      VCO_MIN * r2 / LC_FREQ + 1 ≤ n2 → n2 ≤ VCO_MAX * r2 / LC_FREQ →
      (r2 < tr2 → (n2 * (tr2 * tr2) < tn2 * (r2 * r2) ∨ noInBFact f B r2 n2)) ∧
      (tr2 < r2 → (n2 * (tr2 * tr2) ≤ tn2 * (r2 * r2) ∨ noInBFact f B r2 n2)) ∧
      (r2 = tr2 → n2 < tn2 → (n2 * (tr2 * tr2) < tn2 * (r2 * r2) ∨ noInBFact f B r2 n2)) ∧
      (r2 = tr2 → tn2 < n2 → (n2 * (tr2 * tr2) ≤ tn2 * (r2 * r2) ∨ noInBFact f B r2 n2)) ∧
      (r2 = tr2 → n2 = tn2 → tPairFact f B tp tn2 tr2) := by
  intro r2 n2 h14 h112 hlo hhi
  unfold checkFreqInB at h
  have hrow := rowAll_true h (112 - r2) (by omega)
  have e : 112 - (112 - r2) = r2 := by omega
  rw [e] at hrow
  unfold rowCheckInB at hrow
  refine ⟨?_, ?_, ?_, ?_, ?_⟩
  · intro hlt
    have hb : Nat.blt r2 tr2 = true := by rw [Nat.blt_eq]; exact hlt
    rw [hb, Bool.cond_true] at hrow
    exact rowCheckS_spec hf hB (by omega) hrow n2 hlo hhi
  · intro hgt
    have hb : Nat.blt r2 tr2 = false :=
      Bool.eq_false_iff.mpr fun hc => by rw [Nat.blt_eq] at hc; omega
    have hb2 : Nat.blt tr2 r2 = true := by rw [Nat.blt_eq]; exact hgt
    rw [hb, Bool.cond_false, hb2, Bool.cond_true] at hrow
    exact rowCheckN_spec hf hB (by omega) hrow n2 hlo hhi
  · intro heq hn2
    subst heq
    have hb : Nat.blt r2 r2 = false :=
      Bool.eq_false_iff.mpr fun hc => by rw [Nat.blt_eq] at hc; omega
    rw [hb, Bool.cond_false, Bool.cond_false] at hrow
    exact (rowCheckT_spec hf hB (by omega) htp hrow n2 hlo hhi).1 hn2
  · intro heq hn2
    subst heq
    have hb : Nat.blt r2 r2 = false :=
      Bool.eq_false_iff.mpr fun hc => by rw [Nat.blt_eq] at hc; omega
    rw [hb, Bool.cond_false, Bool.cond_false] at hrow
    exact (rowCheckT_spec hf hB (by omega) htp hrow n2 hlo hhi).2.1 hn2
  · intro heq hn2
    subst heq
    subst hn2
    have hb : Nat.blt r2 r2 = false :=
      Bool.eq_false_iff.mpr fun hc => by rw [Nat.blt_eq] at hc; omega
    rw [hb, Bool.cond_false, Bool.cond_false] at hrow
    exact (rowCheckT_spec hf hB (by omega) htp hrow n2 hlo hhi).2.2 rfl

/-! Row-level extraction for the over-budget certificate. -/

/-- No even p of the pair has relative error at most the reference
error. -/
def eLeFreeFact (w1 w2 LP r2 n2 : Nat) : Prop :=
  ∀ p, p % 2 = 0 → 2 ≤ p → p ≤ 64 →
    ¬(LP * n2 ≤ p * (r2 * w1) ∧ p * (r2 * w2) ≤ LP * n2)

/-- No even p of the pair has relative error strictly below the
reference error. -/
def eLtFreeFact (w1 w2 LP r2 n2 : Nat) : Prop :=
  ∀ p, p % 2 = 0 → 2 ≤ p → p ≤ 64 →
    ¬(LP * n2 < p * (r2 * w1) ∧ p * (r2 * w2) < LP * n2)

/-- Row specification for r2 < tr2 in the over-budget case. -/
theorem rowCheckEb_spec {w1 w2 LP r2 : Nat} (hw1 : 0 < r2 * w1) (hw2 : 0 < r2 * w2)
    (h : rowCheckEb w1 w2 LP r2 = true) :
    ∀ n2, VCO_MIN * r2 / LC_FREQ + 1 ≤ n2 → n2 ≤ VCO_MAX * r2 / LC_FREQ →
      eLeFreeFact w1 w2 LP r2 n2 := by
  intro n2 hlo hhi
  unfold rowCheckEb at h
  have hk := rowAll_true h (VCO_MAX * r2 / LC_FREQ - n2) (by omega)
  have e : VCO_MAX * r2 / LC_FREQ - (VCO_MAX * r2 / LC_FREQ - n2) = n2 := by omega
  rw [e] at hk
  exact fun p hp h2 h64 hiv => pairELe_spec hw1 hw2 hk p hp h2 h64 hiv

/-- Row specification for r2 > tr2 in the over-budget case. -/
theorem rowCheckEa_spec {w1 w2 LP r2 : Nat} (hw1 : 0 < r2 * w1) (hw2 : 0 < r2 * w2)
    (h : rowCheckEa w1 w2 LP r2 = true) :
    ∀ n2, VCO_MIN * r2 / LC_FREQ + 1 ≤ n2 → n2 ≤ VCO_MAX * r2 / LC_FREQ →
      eLtFreeFact w1 w2 LP r2 n2 := by
  intro n2 hlo hhi
  unfold rowCheckEa at h
  have hk := rowAll_true h (VCO_MAX * r2 / LC_FREQ - n2) (by omega)
  have e : VCO_MAX * r2 / LC_FREQ - (VCO_MAX * r2 / LC_FREQ - n2) = n2 := by omega
  rw [e] at hk
  exact fun p hp h2 h64 hiv => pairELt_spec hw1 hw2 hk p hp h2 h64 hiv

/-- Row specification for the reference row in the over-budget case. -/
theorem rowCheckET_spec {w1 w2 LP tp tn2 r2 : Nat} (hw1 : 0 < r2 * w1)
    (hw2 : 0 < r2 * w2) (htp : tp % 2 = 0)
    (h : rowCheckET w1 w2 LP tp tn2 r2 = true) :
    ∀ n2, VCO_MIN * r2 / LC_FREQ + 1 ≤ n2 → n2 ≤ VCO_MAX * r2 / LC_FREQ →
      (n2 < tn2 → eLeFreeFact w1 w2 LP r2 n2) ∧
      (tn2 < n2 → eLtFreeFact w1 w2 LP r2 n2) ∧
      (n2 = tn2 →
        (∀ p, p % 2 = 0 → 2 ≤ p → p < tp →
          ¬(LP * n2 ≤ p * (r2 * w1) ∧ p * (r2 * w2) ≤ LP * n2)) ∧
        ∀ p, p % 2 = 0 → p ≤ 64 → tp < p →
          ¬(LP * n2 < p * (r2 * w1) ∧ p * (r2 * w2) < LP * n2)) := by
  intro n2 hlo hhi
  unfold rowCheckET at h
  have hk := rowAll_true h (VCO_MAX * r2 / LC_FREQ - n2) (by omega)
  have e : VCO_MAX * r2 / LC_FREQ - (VCO_MAX * r2 / LC_FREQ - n2) = n2 := by omega
  rw [e] at hk
  refine ⟨?_, ?_, ?_⟩
  · intro hn2
    have hb : Nat.blt n2 tn2 = true := by rw [Nat.blt_eq]; exact hn2
    rw [hb, Bool.cond_true] at hk
    exact fun p hp h2 h64 hiv => pairELe_spec hw1 hw2 hk p hp h2 h64 hiv
  · intro hn2
    have hb : Nat.blt n2 tn2 = false :=
      Bool.eq_false_iff.mpr fun hc => by rw [Nat.blt_eq] at hc; omega
    have hb2 : Nat.blt tn2 n2 = true := by rw [Nat.blt_eq]; exact hn2
    rw [hb, Bool.cond_false, hb2, Bool.cond_true] at hk
    exact fun p hp h2 h64 hiv => pairELt_spec hw1 hw2 hk p hp h2 h64 hiv
  · intro hn2
    have hb : Nat.blt n2 tn2 = false :=
      Bool.eq_false_iff.mpr fun hc => by rw [Nat.blt_eq] at hc; omega
    have hb2 : Nat.blt tn2 n2 = false :=
      Bool.eq_false_iff.mpr fun hc => by rw [Nat.blt_eq] at hc; omega
    rw [hb, Bool.cond_false, hb2, Bool.cond_false] at hk
    exact tPairE_spec hw1 hw2 htp hk

/-- Extraction of the whole over-budget certificate. -/
theorem checkFreqNoB_spec {f tp tn2 tr2 : Nat} (hf : 0 < f) (htr2 : 0 < tr2)
    (htp : tp % 2 = 0) (h : checkFreqNoB f tp tn2 tr2 = true) :
    0 < wrpll_diff f tp tr2 tn2 ∧
    wrpll_diff f tp tr2 tn2 < f * (tp * tr2) ∧
    ∀ r2 n2, 14 ≤ r2 → r2 ≤ 112 →
      VCO_MIN * r2 / LC_FREQ + 1 ≤ n2 → n2 ≤ VCO_MAX * r2 / LC_FREQ →
      (r2 < tr2 → eLeFreeFact (f * (tp * tr2) + wrpll_diff f tp tr2 tn2)
        (f * (tp * tr2) - wrpll_diff f tp tr2 tn2) (5400000 * (tp * tr2)) r2 n2) ∧
      (tr2 < r2 → eLtFreeFact (f * (tp * tr2) + wrpll_diff f tp tr2 tn2)
        (f * (tp * tr2) - wrpll_diff f tp tr2 tn2) (5400000 * (tp * tr2)) r2 n2) ∧
      (r2 = tr2 → n2 < tn2 → eLeFreeFact (f * (tp * tr2) + wrpll_diff f tp tr2 tn2)
        (f * (tp * tr2) - wrpll_diff f tp tr2 tn2) (5400000 * (tp * tr2)) r2 n2) ∧
      (r2 = tr2 → tn2 < n2 → eLtFreeFact (f * (tp * tr2) + wrpll_diff f tp tr2 tn2)
        (f * (tp * tr2) - wrpll_diff f tp tr2 tn2) (5400000 * (tp * tr2)) r2 n2) ∧
      (r2 = tr2 → n2 = tn2 →
        (∀ p, p % 2 = 0 → 2 ≤ p → p < tp →
          ¬(5400000 * (tp * tr2) * n2 ≤
              p * (r2 * (f * (tp * tr2) + wrpll_diff f tp tr2 tn2)) ∧
            p * (r2 * (f * (tp * tr2) - wrpll_diff f tp tr2 tn2)) ≤
              5400000 * (tp * tr2) * n2)) ∧
        ∀ p, p % 2 = 0 → p ≤ 64 → tp < p →
          ¬(5400000 * (tp * tr2) * n2 <
              p * (r2 * (f * (tp * tr2) + wrpll_diff f tp tr2 tn2)) ∧
            p * (r2 * (f * (tp * tr2) - wrpll_diff f tp tr2 tn2)) <
              5400000 * (tp * tr2) * n2)) := by
  unfold checkFreqNoB at h
  rw [Bool.and_eq_true] at h
  obtain ⟨hW, hloop⟩ := h
  rw [Bool.and_eq_true] at hW
  obtain ⟨hW0, hWfP⟩ := hW
  rw [Nat.blt_eq] at hW0 hWfP
  refine ⟨hW0, hWfP, ?_⟩
  intro r2 n2 h14 h112 hlo hhi
  have hw1 : 0 < r2 * (f * (tp * tr2) + wrpll_diff f tp tr2 tn2) := by
    have : 0 < f * (tp * tr2) := by omega
    exact Nat.mul_pos (by omega) (by omega)
  have hw2 : 0 < r2 * (f * (tp * tr2) - wrpll_diff f tp tr2 tn2) :=
    Nat.mul_pos (by omega) (by omega)
  have hrow := rowAll_true hloop (112 - r2) (by omega)
  have e : 112 - (112 - r2) = r2 := by omega
  rw [e] at hrow
  unfold rowCheckNoB at hrow
  refine ⟨?_, ?_, ?_, ?_, ?_⟩
  · intro hlt
    have hb : Nat.blt r2 tr2 = true := by rw [Nat.blt_eq]; exact hlt
    rw [hb, Bool.cond_true] at hrow
    exact rowCheckEb_spec hw1 hw2 hrow n2 hlo hhi
  · intro hgt
    have hb : Nat.blt r2 tr2 = false :=
      Bool.eq_false_iff.mpr fun hc => by rw [Nat.blt_eq] at hc; omega
    have hb2 : Nat.blt tr2 r2 = true := by rw [Nat.blt_eq]; exact hgt
    rw [hb, Bool.cond_false, hb2, Bool.cond_true] at hrow
    exact rowCheckEa_spec hw1 hw2 hrow n2 hlo hhi
  · intro heq hn2
    subst heq
    have hb : Nat.blt r2 r2 = false :=
      Bool.eq_false_iff.mpr fun hc => by rw [Nat.blt_eq] at hc; omega
    rw [hb, Bool.cond_false, Bool.cond_false] at hrow
    exact (rowCheckET_spec hw1 hw2 htp hrow n2 hlo hhi).1 hn2
  · intro heq hn2
    subst heq
    have hb : Nat.blt r2 r2 = false :=
      Bool.eq_false_iff.mpr fun hc => by rw [Nat.blt_eq] at hc; omega
    rw [hb, Bool.cond_false, Bool.cond_false] at hrow
    exact (rowCheckET_spec hw1 hw2 htp hrow n2 hlo hhi).2.1 hn2
  · intro heq hn2
    subst heq
    subst hn2
    have hb : Nat.blt r2 r2 = false :=
      Bool.eq_false_iff.mpr fun hc => by rw [Nat.blt_eq] at hc; omega
    rw [hb, Bool.cond_false, Bool.cond_false] at hrow
    exact (rowCheckET_spec hw1 hw2 htp hrow n2 hlo hhi).2.2 rfl

/-! Splitting the enumeration at the reference candidate. -/

/-- Splitting a unit-step range at an interior point. -/
theorem range'_split_at {s n x : Nat} (h1 : s ≤ x) (h2 : x < s + n) :
    List.range' s n = List.range' s (x - s) ++ x :: List.range' (x + 1) (s + n - x - 1) := by
  have h := List.range'_append_1 s (x - s) (s + n - x)
  have e2 : s + (x - s) = x := by omega
  have e3 : s + n - x + (x - s) = n := by omega
  rw [e2, e3] at h
  rw [← h]
  obtain ⟨k, hk⟩ : ∃ k, s + n - x = k + 1 := ⟨s + n - x - 1, by omega⟩
  have hk1 : s + n - x - 1 = k := by omega
  rw [hk1, hk, List.range'_succ]

/-- Splitting the even p range at an interior point. -/
theorem range2_split_at {x i : Nat} (hx : x = 2 + 2 * i) (hi : i < 32) :
    List.range' 2 32 2 = List.range' 2 i 2 ++ x :: List.range' (x + 2) (31 - i) 2 := by
  have h := List.range'_append 2 i (32 - i) 2
  have e3 : 32 - i + i = 32 := by omega
  rw [e3] at h
  rw [← h, ← hx]
  have e4 : 32 - i = (31 - i) + 1 := by omega
  rw [hx, e4, List.range'_succ, ← hx]

/-- Splitting the candidate enumeration at the reference triple: the
candidates before it are lexicographically smaller and the candidates
after it are lexicographically larger. -/
theorem candList_split (tp tn2 tr2 : Nat) (h14 : 14 ≤ tr2) (h112 : tr2 ≤ 112)
    (hlo : VCO_MIN * tr2 / LC_FREQ + 1 ≤ tn2) (hhi : tn2 ≤ VCO_MAX * tr2 / LC_FREQ)
    (hp2 : 2 ≤ tp) (hp64 : tp ≤ 64) (hpe : tp % 2 = 0) :
    ∃ L1 L2, candList = L1 ++ (tr2, tn2, tp) :: L2 ∧
      (∀ y ∈ L1, y.1 < tr2 ∨ (y.1 = tr2 ∧ y.2.1 < tn2) ∨
        (y.1 = tr2 ∧ y.2.1 = tn2 ∧ y.2.2 < tp)) ∧
      (∀ y ∈ L2, tr2 < y.1 ∨ (y.1 = tr2 ∧ tn2 < y.2.1) ∨
        (y.1 = tr2 ∧ y.2.1 = tn2 ∧ tp < y.2.2)) := by
  obtain ⟨i, hi, hx⟩ : ∃ i, i < 32 ∧ tp = 2 + 2 * i := ⟨(tp - 2) / 2, by omega, by omega⟩
  have hlh := n2_lo_le_hi (show 2 ≤ tr2 by omega)
  have hr : r2List =
      List.range' 14 (tr2 - 14) ++ tr2 :: List.range' (tr2 + 1) (14 + 99 - tr2 - 1) := by
    rw [r2List_eq]
    exact range'_split_at (by omega) (by omega)
  have hn : n2List tr2 =
      List.range' (VCO_MIN * tr2 / LC_FREQ + 1) (tn2 - (VCO_MIN * tr2 / LC_FREQ + 1)) ++
        tn2 :: List.range' (tn2 + 1)
          (VCO_MIN * tr2 / LC_FREQ + 1 + (VCO_MAX * tr2 / LC_FREQ + 1 -
            (VCO_MIN * tr2 / LC_FREQ + 1)) - tn2 - 1) := by
    unfold n2List
    exact range'_split_at (by omega) (by omega)
  have hp : pList = List.range' 2 i 2 ++ tp :: List.range' (tp + 2) (31 - i) 2 := by
    rw [pList_eq]
    exact range2_split_at hx hi
  refine ⟨(List.range' 14 (tr2 - 14)).flatMap
      (fun r2 => (n2List r2).flatMap fun n2 => pList.map fun p => (r2, n2, p)) ++
      ((List.range' (VCO_MIN * tr2 / LC_FREQ + 1)
          (tn2 - (VCO_MIN * tr2 / LC_FREQ + 1))).flatMap
        (fun n2 => pList.map fun p => (tr2, n2, p)) ++
        (List.range' 2 i 2).map fun p => (tr2, tn2, p)),
    ((List.range' (tp + 2) (31 - i) 2).map fun p => (tr2, tn2, p)) ++
      ((List.range' (tn2 + 1)
          (VCO_MIN * tr2 / LC_FREQ + 1 + (VCO_MAX * tr2 / LC_FREQ + 1 -
            (VCO_MIN * tr2 / LC_FREQ + 1)) - tn2 - 1)).flatMap
        (fun n2 => pList.map fun p => (tr2, n2, p)) ++
        (List.range' (tr2 + 1) (14 + 99 - tr2 - 1)).flatMap
          (fun r2 => (n2List r2).flatMap fun n2 => pList.map fun p => (r2, n2, p))),
    ?_, ?_, ?_⟩
  · unfold candList
    rw [hr, List.flatMap_append, List.flatMap_cons, hn, List.flatMap_append,
      List.flatMap_cons, hp, List.map_append, List.map_cons]
    simp only [List.append_assoc, List.cons_append]
  · intro y hy
    rcases List.mem_append.mp hy with hy | hy
    · simp only [List.mem_flatMap, List.mem_map] at hy
      obtain ⟨r2, hr2, n2, hn2, p, hpp, rfl⟩ := hy
      rw [List.mem_range'] at hr2
      obtain ⟨j, hj, rfl⟩ := hr2
      exact Or.inl (by omega)
    · rcases List.mem_append.mp hy with hy | hy
      · simp only [List.mem_flatMap, List.mem_map] at hy
        obtain ⟨n2, hn2, p, hpp, rfl⟩ := hy
        rw [List.mem_range'] at hn2
        obtain ⟨j, hj, rfl⟩ := hn2
        refine Or.inr (Or.inl ⟨rfl, ?_⟩)
        dsimp only
        omega
      · simp only [List.mem_map] at hy
        obtain ⟨p, hpp, rfl⟩ := hy
        rw [List.mem_range'] at hpp
        obtain ⟨j, hj, rfl⟩ := hpp
        refine Or.inr (Or.inr ⟨rfl, rfl, ?_⟩)
        dsimp only
        omega
  · intro y hy
    rcases List.mem_append.mp hy with hy | hy
    · simp only [List.mem_map] at hy
      obtain ⟨p, hpp, rfl⟩ := hy
      rw [List.mem_range'] at hpp
      obtain ⟨j, hj, rfl⟩ := hpp
      refine Or.inr (Or.inr ⟨rfl, rfl, ?_⟩)
      dsimp only
      omega
    · rcases List.mem_append.mp hy with hy | hy
      · simp only [List.mem_flatMap, List.mem_map] at hy
        obtain ⟨n2, hn2, p, hpp, rfl⟩ := hy
        rw [List.mem_range'] at hn2
        obtain ⟨j, hj, rfl⟩ := hn2
        refine Or.inr (Or.inl ⟨rfl, ?_⟩)
        dsimp only
        omega
      · simp only [List.mem_flatMap, List.mem_map] at hy
        obtain ⟨r2, hr2, n2, hn2, p, hpp, rfl⟩ := hy
        rw [List.mem_range'] at hr2
        obtain ⟨j, hj, rfl⟩ := hr2
        exact Or.inl (by omega)

/-! Bridging the certificates to the fold: the reference triple is
adopted at its own position and kept until the end of the search. -/

/-- Numeral form of the budget interval midpoint. -/
theorem lc2k_mul (n2 : Nat) : 1000000 * (LC_FREQ_2K * n2) = 5400000000000 * n2 := by
  simp only [LC_FREQ_2K, LC_FREQ]
  ring

/-- Numeral form of the error interval midpoint. -/
theorem lc2k_mul3 (P n2 : Nat) : LC_FREQ_2K * P * n2 = 5400000 * P * n2 := by
  simp only [LC_FREQ_2K, LC_FREQ]

/-- Folding over candidates that never displace the record keeps it. -/
theorem foldl_updStep_fixed (freq2k budget : Nat) (b : wrpll_rnp) :
    ∀ l : List (Nat × Nat × Nat), (∀ y ∈ l, updStep freq2k budget b y = b) →
      l.foldl (updStep freq2k budget) b = b := by
  intro l
  induction l with
  | nil => intro _; rfl
  | cons y l ih =>
      intro h
      rw [List.foldl_cons, h y (List.mem_cons_self y l)]
      exact ih fun z hz => h z (List.mem_cons_of_mem y hz)

/-- When the reference triple is within budget, it displaces any record
that is either over budget at its p, or of strictly smaller quality. -/
theorem inB_beats_one (f B tp tn2 tr2 p n2 r2 : Nat) (hp0 : p ≠ 0) (hB : B ≤ 5000)
    (hTin : 1000000 * wrpll_diff f tp tr2 tn2 ≤ wrpll_a f B tp tr2)
    (hfact : n2 * (tr2 * tr2) < tn2 * (r2 * r2) ∨
      ¬(5400000000000 * n2 ≤ p * (f * r2 * (1000000 + B)) ∧
        p * (f * r2 * (1000000 - B)) ≤ 5400000000000 * n2)) :
    wrpll_update_rnp f B tr2 tn2 tp ⟨p, n2, r2⟩ = ⟨tp, tn2, tr2⟩ := by
  by_cases hy : 1000000 * wrpll_diff f p r2 n2 ≤ wrpll_a f B p r2
  · rcases hfact with hq | hno
    · refine upd_adopt_both_in_q f B tr2 tn2 tp ⟨p, n2, r2⟩ hp0 hTin hy ?_
      show wrpll_nrr tn2 r2 > wrpll_nrr n2 tr2
      unfold wrpll_nrr
      have e1 : tn2 * r2 * r2 = tn2 * (r2 * r2) := by ring
      have e2 : n2 * tr2 * tr2 = n2 * (tr2 * tr2) := by ring
      omega
    · exfalso
      rw [inB_iff f B r2 n2 p (by omega)] at hy
      have e := lc2k_mul n2
      exact hno ⟨by omega, by omega⟩
  · exact upd_adopt_cand_in_best_over f B tr2 tn2 tp ⟨p, n2, r2⟩ hp0 hTin
      (not_le.mp hy)

/-- When the reference triple is within budget, it survives any later
candidate that is either over budget, or of no strictly larger
quality. -/
theorem inB_keeps_one (f B tp tn2 tr2 p n2 r2 : Nat) (htp0 : tp ≠ 0) (hB : B ≤ 5000)
    (hTin : 1000000 * wrpll_diff f tp tr2 tn2 ≤ wrpll_a f B tp tr2)
    (hfact : n2 * (tr2 * tr2) ≤ tn2 * (r2 * r2) ∨
      ¬(5400000000000 * n2 ≤ p * (f * r2 * (1000000 + B)) ∧
        p * (f * r2 * (1000000 - B)) ≤ 5400000000000 * n2)) :
    wrpll_update_rnp f B r2 n2 p ⟨tp, tn2, tr2⟩ = ⟨tp, tn2, tr2⟩ := by
  by_cases hy : 1000000 * wrpll_diff f p r2 n2 ≤ wrpll_a f B p r2
  · rcases hfact with hq | hno
    · refine upd_keep_both_in_q f B r2 n2 p ⟨tp, tn2, tr2⟩ htp0 hy hTin ?_
      show ¬ wrpll_nrr n2 tr2 > wrpll_nrr tn2 r2
      unfold wrpll_nrr
      have e1 : n2 * tr2 * tr2 = n2 * (tr2 * tr2) := by ring
      have e2 : tn2 * r2 * r2 = tn2 * (r2 * r2) := by ring
      omega
    · exfalso
      rw [inB_iff f B r2 n2 p (by omega)] at hy
      have e := lc2k_mul n2
      exact hno ⟨by omega, by omega⟩
  · exact upd_keep_cand_over_best_in f B r2 n2 p ⟨tp, tn2, tr2⟩ htp0
      (not_le.mp hy) hTin

/-- When the reference triple is over budget and the closed error
interval of the pair misses p, the reference displaces the record at
(r2, n2, p). -/
theorem noB_beats_one (f B tp tn2 tr2 p n2 r2 : Nat) (hp0 : p ≠ 0) (hpr : 0 < p * r2)
    (hTover : wrpll_a f B tp tr2 < 1000000 * wrpll_diff f tp tr2 tn2)
    (hW : wrpll_diff f tp tr2 tn2 ≤ f * (tp * tr2))
    (hpt : ¬(5400000 * (tp * tr2) * n2 ≤
        p * (r2 * (f * (tp * tr2) + wrpll_diff f tp tr2 tn2)) ∧
      p * (r2 * (f * (tp * tr2) - wrpll_diff f tp tr2 tn2)) ≤
        5400000 * (tp * tr2) * n2)) :
    wrpll_update_rnp f B tr2 tn2 tp ⟨p, n2, r2⟩ = ⟨tp, tn2, tr2⟩ := by
  have hkey : ¬ (wrpll_diff f p r2 n2 * (tp * tr2) ≤
      wrpll_diff f tp tr2 tn2 * (p * r2)) := by
    intro hle
    rw [eLe_iff f (tp * tr2) (wrpll_diff f tp tr2 tn2) r2 n2 p hW] at hle
    have e := lc2k_mul3 (tp * tr2) n2
    exact hpt ⟨by omega, by omega⟩
  have hyover : wrpll_a f B p r2 < 1000000 * wrpll_diff f p r2 n2 := by
    by_contra hcon
    push_neg at hcon
    apply hkey
    have h1 : 1000000 * wrpll_diff f p r2 n2 * (tp * tr2) ≤
        wrpll_a f B p r2 * (tp * tr2) := Nat.mul_le_mul_right _ hcon
    have h2 : wrpll_a f B tp tr2 * (p * r2) <
        1000000 * wrpll_diff f tp tr2 tn2 * (p * r2) :=
      mul_lt_mul_of_pos_right hTover hpr
    have e1 : wrpll_a f B p r2 * (tp * tr2) = wrpll_a f B tp tr2 * (p * r2) := by
      unfold wrpll_a
      ring
    have e2 : 1000000 * wrpll_diff f p r2 n2 * (tp * tr2) =
        1000000 * (wrpll_diff f p r2 n2 * (tp * tr2)) := by ring
    have e3 : 1000000 * wrpll_diff f tp tr2 tn2 * (p * r2) =
        1000000 * (wrpll_diff f tp tr2 tn2 * (p * r2)) := by ring
    omega
  refine upd_adopt_both_over_e f B tr2 tn2 tp ⟨p, n2, r2⟩ hp0 hTover hyover ?_
  show wrpll_cross p r2 (wrpll_diff f tp tr2 tn2) <
    wrpll_cross tp tr2 (wrpll_diff f p r2 n2)
  unfold wrpll_cross
  have e4 : p * r2 * wrpll_diff f tp tr2 tn2 =
      wrpll_diff f tp tr2 tn2 * (p * r2) := by ring
  have e5 : tp * tr2 * wrpll_diff f p r2 n2 =
      wrpll_diff f p r2 n2 * (tp * tr2) := by ring
  omega

/-- When the reference triple is over budget and the open error
interval of the pair misses p, the reference survives the candidate at
(r2, n2, p). -/
theorem noB_keeps_one (f B tp tn2 tr2 p n2 r2 : Nat) (htp0 : tp ≠ 0) (hpr : 0 < p * r2)
    (hTover : wrpll_a f B tp tr2 < 1000000 * wrpll_diff f tp tr2 tn2)
    (hW : wrpll_diff f tp tr2 tn2 ≤ f * (tp * tr2))
    (hpt : ¬(5400000 * (tp * tr2) * n2 <
        p * (r2 * (f * (tp * tr2) + wrpll_diff f tp tr2 tn2)) ∧
      p * (r2 * (f * (tp * tr2) - wrpll_diff f tp tr2 tn2)) <
        5400000 * (tp * tr2) * n2)) :
    wrpll_update_rnp f B r2 n2 p ⟨tp, tn2, tr2⟩ = ⟨tp, tn2, tr2⟩ := by
  have hkey : ¬ (wrpll_diff f p r2 n2 * (tp * tr2) <
      wrpll_diff f tp tr2 tn2 * (p * r2)) := by
    intro hlt
    rw [eLt_iff f (tp * tr2) (wrpll_diff f tp tr2 tn2) r2 n2 p hW] at hlt
    have e := lc2k_mul3 (tp * tr2) n2
    exact hpt ⟨by omega, by omega⟩
  have hyover : wrpll_a f B p r2 < 1000000 * wrpll_diff f p r2 n2 := by
    by_contra hcon
    push_neg at hcon
    apply hkey
    have h1 : 1000000 * wrpll_diff f p r2 n2 * (tp * tr2) ≤
        wrpll_a f B p r2 * (tp * tr2) := Nat.mul_le_mul_right _ hcon
    have h2 : wrpll_a f B tp tr2 * (p * r2) <
        1000000 * wrpll_diff f tp tr2 tn2 * (p * r2) :=
      mul_lt_mul_of_pos_right hTover hpr
    have e1 : wrpll_a f B p r2 * (tp * tr2) = wrpll_a f B tp tr2 * (p * r2) := by
      unfold wrpll_a
      ring
    have e2 : 1000000 * wrpll_diff f p r2 n2 * (tp * tr2) =
        1000000 * (wrpll_diff f p r2 n2 * (tp * tr2)) := by ring
    have e3 : 1000000 * wrpll_diff f tp tr2 tn2 * (p * r2) =
        1000000 * (wrpll_diff f tp tr2 tn2 * (p * r2)) := by ring
    omega
  refine upd_keep_both_over_e f B r2 n2 p ⟨tp, tn2, tr2⟩ htp0 hyover hTover ?_
  show ¬ wrpll_cross tp tr2 (wrpll_diff f p r2 n2) <
    wrpll_cross p r2 (wrpll_diff f tp tr2 tn2)
  unfold wrpll_cross
  have e4 : p * r2 * wrpll_diff f tp tr2 tn2 =
      wrpll_diff f tp tr2 tn2 * (p * r2) := by ring
  have e5 : tp * tr2 * wrpll_diff f p r2 n2 =
      wrpll_diff f p r2 n2 * (tp * tr2) := by ring
  omega

/-- Bridge for the within-budget case: a true certificate pins the
search result to the reference triple. -/
theorem bridge_inB (f B tp tn2 tr2 : Nat) (hf : 0 < f) (hf54 : f ≠ 5400000)
    (hB : B ≤ 5000) (h14 : 14 ≤ tr2) (h112 : tr2 ≤ 112)
    (hlo : VCO_MIN * tr2 / LC_FREQ + 1 ≤ tn2) (hhi : tn2 ≤ VCO_MAX * tr2 / LC_FREQ)
    (hp2 : 2 ≤ tp) (hp64 : tp ≤ 64) (hpe : tp % 2 = 0)
    (hTin : 1000000 * wrpll_diff f tp tr2 tn2 ≤ wrpll_a f B tp tr2)
    (hc : checkFreqInB f B tp tn2 tr2 = true) :
    wrpll_compute_rnp_core f B = ⟨tp, tn2, tr2⟩ := by
  obtain ⟨L1, L2, hsplit, hbefore, hafter⟩ :=
    candList_split tp tn2 tr2 h14 h112 hlo hhi hp2 hp64 hpe
  have hcf := checkFreqInB_spec hf hB hpe hc
  rw [core_eq_foldl f B hf54, hsplit, List.foldl_append, List.foldl_cons]
  have hadopt : ∀ y ∈ L1, (⟨y.2.2, y.2.1, y.1⟩ : wrpll_rnp).p ≠ 0 ∧
      updStep f B ⟨y.2.2, y.2.1, y.1⟩ (tr2, tn2, tp) = ⟨tp, tn2, tr2⟩ := by
    intro y hy
    have hyc : y ∈ candList := by
      rw [hsplit]
      exact List.mem_append_left _ hy
    obtain ⟨hyr, hyn, hyp⟩ := candList_mem hyc
    have hby := hbefore y hy
    obtain ⟨r2, n2, p⟩ := y
    dsimp only at hyr hyn hyp hby
    obtain ⟨hr14, hr112⟩ := r2List_bounds hyr
    obtain ⟨hnlo, hnhi⟩ := n2List_bounds (by omega) hyn
    obtain ⟨hp2t, hp64t, hpet⟩ := pList_bounds hyp
    refine ⟨by dsimp only; omega, ?_⟩
    show wrpll_update_rnp f B tr2 tn2 tp ⟨p, n2, r2⟩ = ⟨tp, tn2, tr2⟩
    rcases hby with hlt | ⟨heq, hlt⟩ | ⟨heq, heq2, hlt⟩
    · have hfacts := hcf r2 n2 hr14 hr112 hnlo hnhi
      rcases hfacts.1 hlt with hq | hno
      · exact inB_beats_one f B tp tn2 tr2 p n2 r2 (by omega) hB hTin (Or.inl hq)
      · exact inB_beats_one f B tp tn2 tr2 p n2 r2 (by omega) hB hTin
          (Or.inr (hno p hpet hp2t hp64t))
    · subst heq
      have hfacts := hcf r2 n2 hr14 hr112 hnlo hnhi
      rcases hfacts.2.2.1 rfl hlt with hq | hno
      · exact inB_beats_one f B tp tn2 r2 p n2 r2 (by omega) hB hTin (Or.inl hq)
      · exact inB_beats_one f B tp tn2 r2 p n2 r2 (by omega) hB hTin
          (Or.inr (hno p hpet hp2t hp64t))
    · subst heq
      subst heq2
      have htpf := (hcf r2 n2 hr14 hr112 hnlo hnhi).2.2.2.2 rfl rfl
      exact inB_beats_one f B tp n2 r2 p n2 r2 (by omega) hB hTin
        (Or.inr (htpf.2 p hpet hp2t hlt))
  have hb1 : updStep f B (L1.foldl (updStep f B) ⟨0, 0, 0⟩) (tr2, tn2, tp) =
      ⟨tp, tn2, tr2⟩ := by
    by_cases hL1 : L1 = []
    · subst hL1
      exact updStep_sentinel f B (tr2, tn2, tp)
    · exact (foldl_updStep_invariant f B
        (fun b => b.p ≠ 0 ∧ updStep f B b (tr2, tn2, tp) = ⟨tp, tn2, tr2⟩)
        L1 ⟨0, 0, 0⟩ hadopt (Or.inr ⟨rfl, hL1⟩)).2
  rw [hb1]
  apply foldl_updStep_fixed
  intro y hy
  have hyc : y ∈ candList := by
    rw [hsplit]
    exact List.mem_append_right _ (List.mem_cons_of_mem _ hy)
  obtain ⟨hyr, hyn, hyp⟩ := candList_mem hyc
  have hay := hafter y hy
  obtain ⟨r2, n2, p⟩ := y
  dsimp only at hyr hyn hyp hay
  obtain ⟨hr14, hr112⟩ := r2List_bounds hyr
  obtain ⟨hnlo, hnhi⟩ := n2List_bounds (by omega) hyn
  obtain ⟨hp2t, hp64t, hpet⟩ := pList_bounds hyp
  show wrpll_update_rnp f B r2 n2 p ⟨tp, tn2, tr2⟩ = ⟨tp, tn2, tr2⟩
  rcases hay with hgt | ⟨heq, hgt⟩ | ⟨heq, heq2, hgt⟩
  · have hfacts := hcf r2 n2 hr14 hr112 hnlo hnhi
    rcases hfacts.2.1 hgt with hq | hno
    · exact inB_keeps_one f B tp tn2 tr2 p n2 r2 (by omega) hB hTin (Or.inl hq)
    · exact inB_keeps_one f B tp tn2 tr2 p n2 r2 (by omega) hB hTin
        (Or.inr (hno p hpet hp2t hp64t))
  · subst heq
    have hfacts := hcf r2 n2 hr14 hr112 hnlo hnhi
    rcases hfacts.2.2.2.1 rfl hgt with hq | hno
    · exact inB_keeps_one f B tp tn2 r2 p n2 r2 (by omega) hB hTin (Or.inl hq)
    · exact inB_keeps_one f B tp tn2 r2 p n2 r2 (by omega) hB hTin
        (Or.inr (hno p hpet hp2t hp64t))
  · subst heq
    subst heq2
    exact inB_keeps_one f B tp n2 r2 p n2 r2 (by omega) hB hTin
      (Or.inl (le_refl _))

/-- Bridge for the over-budget case: a true certificate pins the
search result to the reference triple. -/
theorem bridge_noB (f B tp tn2 tr2 : Nat) (hf : 0 < f) (hf54 : f ≠ 5400000)
    (h14 : 14 ≤ tr2) (h112 : tr2 ≤ 112)
    (hlo : VCO_MIN * tr2 / LC_FREQ + 1 ≤ tn2) (hhi : tn2 ≤ VCO_MAX * tr2 / LC_FREQ)
    (hp2 : 2 ≤ tp) (hp64 : tp ≤ 64) (hpe : tp % 2 = 0)
    (hTover : wrpll_a f B tp tr2 < 1000000 * wrpll_diff f tp tr2 tn2)
    (hc : checkFreqNoB f tp tn2 tr2 = true) :
    wrpll_compute_rnp_core f B = ⟨tp, tn2, tr2⟩ := by
  obtain ⟨L1, L2, hsplit, hbefore, hafter⟩ :=
    candList_split tp tn2 tr2 h14 h112 hlo hhi hp2 hp64 hpe
  obtain ⟨hW0, hWlt, hcf⟩ := checkFreqNoB_spec hf (by omega) hpe hc
  have hW : wrpll_diff f tp tr2 tn2 ≤ f * (tp * tr2) := le_of_lt hWlt
  rw [core_eq_foldl f B hf54, hsplit, List.foldl_append, List.foldl_cons]
  have hadopt : ∀ y ∈ L1, (⟨y.2.2, y.2.1, y.1⟩ : wrpll_rnp).p ≠ 0 ∧
      updStep f B ⟨y.2.2, y.2.1, y.1⟩ (tr2, tn2, tp) = ⟨tp, tn2, tr2⟩ := by
    intro y hy
    have hyc : y ∈ candList := by
      rw [hsplit]
      exact List.mem_append_left _ hy
    obtain ⟨hyr, hyn, hyp⟩ := candList_mem hyc
    have hby := hbefore y hy
    obtain ⟨r2, n2, p⟩ := y
    dsimp only at hyr hyn hyp hby
    obtain ⟨hr14, hr112⟩ := r2List_bounds hyr
    obtain ⟨hnlo, hnhi⟩ := n2List_bounds (by omega) hyn
    obtain ⟨hp2t, hp64t, hpet⟩ := pList_bounds hyp
    have hpr : 0 < p * r2 := Nat.mul_pos (by omega) (by omega)
    refine ⟨by dsimp only; omega, ?_⟩
    show wrpll_update_rnp f B tr2 tn2 tp ⟨p, n2, r2⟩ = ⟨tp, tn2, tr2⟩
    rcases hby with hlt | ⟨heq, hlt⟩ | ⟨heq, heq2, hlt⟩
    · exact noB_beats_one f B tp tn2 tr2 p n2 r2 (by omega) hpr hTover hW
        ((hcf r2 n2 hr14 hr112 hnlo hnhi).1 hlt p hpet hp2t hp64t)
    · subst heq
      exact noB_beats_one f B tp tn2 r2 p n2 r2 (by omega) hpr hTover hW
        ((hcf r2 n2 hr14 hr112 hnlo hnhi).2.2.1 rfl hlt p hpet hp2t hp64t)
    · subst heq
      subst heq2
      exact noB_beats_one f B tp n2 r2 p n2 r2 (by omega) hpr hTover hW
        (((hcf r2 n2 hr14 hr112 hnlo hnhi).2.2.2.2 rfl rfl).1 p hpet hp2t hlt)
  have hb1 : updStep f B (L1.foldl (updStep f B) ⟨0, 0, 0⟩) (tr2, tn2, tp) =
      ⟨tp, tn2, tr2⟩ := by
    by_cases hL1 : L1 = []
    · subst hL1
      exact updStep_sentinel f B (tr2, tn2, tp)
    · exact (foldl_updStep_invariant f B
        (fun b => b.p ≠ 0 ∧ updStep f B b (tr2, tn2, tp) = ⟨tp, tn2, tr2⟩)
        L1 ⟨0, 0, 0⟩ hadopt (Or.inr ⟨rfl, hL1⟩)).2
  rw [hb1]
  apply foldl_updStep_fixed
  intro y hy
  have hyc : y ∈ candList := by
    rw [hsplit]
    exact List.mem_append_right _ (List.mem_cons_of_mem _ hy)
  obtain ⟨hyr, hyn, hyp⟩ := candList_mem hyc
  have hay := hafter y hy
  obtain ⟨r2, n2, p⟩ := y
  dsimp only at hyr hyn hyp hay
  obtain ⟨hr14, hr112⟩ := r2List_bounds hyr
  obtain ⟨hnlo, hnhi⟩ := n2List_bounds (by omega) hyn
  obtain ⟨hp2t, hp64t, hpet⟩ := pList_bounds hyp
  have hpr : 0 < p * r2 := Nat.mul_pos (by omega) (by omega)
  show wrpll_update_rnp f B r2 n2 p ⟨tp, tn2, tr2⟩ = ⟨tp, tn2, tr2⟩
  rcases hay with hgt | ⟨heq, hgt⟩ | ⟨heq, heq2, hgt⟩
  · exact noB_keeps_one f B tp tn2 tr2 p n2 r2 (by omega) hpr hTover hW
      ((hcf r2 n2 hr14 hr112 hnlo hnhi).2.1 hgt p hpet hp2t hp64t)
  · subst heq
    exact noB_keeps_one f B tp tn2 r2 p n2 r2 (by omega) hpr hTover hW
      ((hcf r2 n2 hr14 hr112 hnlo hnhi).2.2.2.1 rfl hgt p hpet hp2t hp64t)
  · subst heq
    subst heq2
    exact noB_keeps_one f B tp n2 r2 p n2 r2 (by omega) hpr hTover hW
      (((hcf r2 n2 hr14 hr112 hnlo hnhi).2.2.2.2 rfl rfl).2 p hpet hp64t hgt)

/-! Entry-level soundness and the table theorem. -/

/-- Case analysis on a Boolean conditional known to be true. -/
theorem cond_true_cases {c x y : Bool} (h : cond c x y = true) :
    (c = true ∧ x = true) ∨ (c = false ∧ y = true) := by
  cases c
  · exact Or.inr ⟨rfl, h⟩
  · exact Or.inl ⟨rfl, h⟩

/-- Soundness of the row certificate: a true entryCheck forces the
search to reproduce the row's reference triplet. -/
theorem entryCheck_sound (e : wrpll_tmds_clock) (h : entryCheck e = true) :
    wrpll_compute_rnp e.clock = ⟨e.p, e.n2, e.r2⟩ := by
  simp only [entryCheck] at h
  rw [Bool.and_eq_true] at h
  obtain ⟨h6, hG⟩ := h
  rw [Bool.and_eq_true] at h6
  obtain ⟨h5, hF⟩ := h6
  rw [Bool.and_eq_true] at h5
  obtain ⟨h4, hE⟩ := h5
  rw [Bool.and_eq_true] at h4
  obtain ⟨h3, hD⟩ := h4
  rw [Bool.and_eq_true] at h3
  obtain ⟨h2, hC⟩ := h3
  rw [Bool.and_eq_true] at h2
  obtain ⟨hA, hB⟩ := h2
  rw [Nat.blt_eq] at hA hB
  rw [Nat.ble_eq] at hC
  rw [Bool.and_eq_true] at hD
  obtain ⟨hD1, hD2⟩ := hD
  rw [Nat.ble_eq] at hD1 hD2
  rw [Bool.and_eq_true] at hE
  obtain ⟨hE1, hE2⟩ := hE
  rw [Nat.ble_eq] at hE1 hE2
  rw [Bool.and_eq_true] at hF
  obtain ⟨hF12, hF3⟩ := hF
  rw [Bool.and_eq_true] at hF12
  obtain ⟨hF1, hF2⟩ := hF12
  rw [Nat.ble_eq] at hF1 hF2
  rw [Nat.beq_eq] at hF3
  show wrpll_compute_rnp_core (e.clock / 100)
    (wrpll_get_budget_for_freq (e.clock : Int)) = ⟨e.p, e.n2, e.r2⟩
  rcases cond_true_cases hG with ⟨hc, hcert⟩ | ⟨hc, hcert⟩
  · rw [Nat.ble_eq] at hc
    exact bridge_inB (e.clock / 100) (wrpll_get_budget_for_freq (e.clock : Int))
      e.p e.n2 e.r2 hA (by omega) hC hD1 hD2 hE1 hE2 hF1 hF2 hF3 hc hcert
  · have hx := Bool.eq_false_iff.mp hc
    simp only [ne_eq, Nat.ble_eq] at hx
    exact bridge_noB (e.clock / 100) (wrpll_get_budget_for_freq (e.clock : Int))
      e.p e.n2 e.r2 hA (by omega) hD1 hD2 hE1 hE2 hF1 hF2 hF3
      (not_le.mp hx) hcert

set_option maxRecDepth 2000000 in
/-- Kernel evaluation of the certificate on chunk 0 of the table. -/
theorem tableCheck_0 : wrpll_tmds_clock_table_0.all entryCheck = true := by decide!

set_option maxRecDepth 2000000 in
/-- Kernel evaluation of the certificate on chunk 1 of the table. -/
theorem tableCheck_1 : wrpll_tmds_clock_table_1.all entryCheck = true := by decide!

set_option maxRecDepth 2000000 in
/-- Kernel evaluation of the certificate on chunk 2 of the table. -/
theorem tableCheck_2 : wrpll_tmds_clock_table_2.all entryCheck = true := by decide!

set_option maxRecDepth 2000000 in
/-- Kernel evaluation of the certificate on chunk 3 of the table. -/
theorem tableCheck_3 : wrpll_tmds_clock_table_3.all entryCheck = true := by decide!

set_option maxRecDepth 2000000 in
/-- Kernel evaluation of the certificate on chunk 4 of the table. -/
theorem tableCheck_4 : wrpll_tmds_clock_table_4.all entryCheck = true := by decide!

set_option maxRecDepth 2000000 in
/-- Kernel evaluation of the certificate on chunk 5 of the table. -/
theorem tableCheck_5 : wrpll_tmds_clock_table_5.all entryCheck = true := by decide!

set_option maxRecDepth 2000000 in
/-- Kernel evaluation of the certificate on chunk 6 of the table. -/
theorem tableCheck_6 : wrpll_tmds_clock_table_6.all entryCheck = true := by decide!

set_option maxRecDepth 2000000 in
/-- Kernel evaluation of the certificate on chunk 7 of the table. -/
theorem tableCheck_7 : wrpll_tmds_clock_table_7.all entryCheck = true := by decide!

set_option maxRecDepth 2000000 in
/-- Kernel evaluation of the certificate on chunk 8 of the table. -/
theorem tableCheck_8 : wrpll_tmds_clock_table_8.all entryCheck = true := by decide!

set_option maxRecDepth 2000000 in
/-- Kernel evaluation of the certificate on chunk 9 of the table. -/
theorem tableCheck_9 : wrpll_tmds_clock_table_9.all entryCheck = true := by decide!

/-- Kernel evaluation of the whole-table certificate, assembled from
the ten chunk certificates. -/
theorem tableCheck_true : tableCheck = true := by
  unfold tableCheck wrpll_tmds_clock_table
  simp only [List.all_append, tableCheck_0, tableCheck_1, tableCheck_2, tableCheck_3,
    tableCheck_4, tableCheck_5, tableCheck_6, tableCheck_7, tableCheck_8, tableCheck_9,
    Bool.and_self]

set_option maxRecDepth 100000 in
/-- Claim C1 (amended): the reference table wrpll_tmds_clock_table has
373 entries (the spec says 339), and for every entry the computed
divider triplet (p, n2, r2) of wrpll_compute_rnp at the entry's clock
equals the reference triplet stored in the entry. -/
theorem C1_table_reproduced :
    wrpll_tmds_clock_table.length = 373 ∧
    ∀ e ∈ wrpll_tmds_clock_table,
      wrpll_compute_rnp e.clock = ⟨e.p, e.n2, e.r2⟩ := by
  refine ⟨by decide, ?_⟩
  intro e he
  apply entryCheck_sound
  have h := tableCheck_true
  unfold tableCheck at h
  rw [List.all_eq_true] at h
  exact h e he

set_option maxRecDepth 100000 in
/-- Witness for claim C1 at the first table entry: 19.75 MHz maps to
p = 38, n2 = 25, r2 = 18. -/
theorem C1_table_reproduced_witness :
    wrpll_tmds_clock_table.length = 373 ∧
    wrpll_compute_rnp 19750000 = ⟨38, 25, 18⟩ :=
  ⟨C1_table_reproduced.1,
    C1_table_reproduced.2 ⟨19750000, 38, 25, 18⟩ (by decide)⟩

set_option maxRecDepth 100000 in
/-- Counterexample to the literal entry count of claim C1: the table
does not have 339 entries. -/
theorem C1_table_cex : wrpll_tmds_clock_table.length ≠ 339 := by decide

end HswWrpll
